import Mathlib

set_option maxRecDepth 100000

/-!
Verification development for the CSCI 101 exam-correction script
(`correct_exams.py`).  The Python source is shallowly embedded: pure string
manipulation is modelled on `List Char`, the stdlib calls `json.loads`,
`str.split`, `str.strip` are modelled by executable Lean functions, and the
fallible parts return `Except`/`Option`.
-/

/-- Characters that are written via their code point to keep source text plain. -/
def btC : Char := Char.ofNat 96

def qcC : Char := Char.ofNat 34

def bsC : Char := Char.ofNat 92

def lbC : Char := Char.ofNat 91

def rbC : Char := Char.ofNat 93

def lcC : Char := Char.ofNat 123

def rcC : Char := Char.ofNat 125

def nlC : Char := Char.ofNat 10

/-- Model of the whitespace set of Python `str.strip` (ASCII part). -/
def isPyWs (c : Char) : Bool :=
  c = ' ' || c = Char.ofNat 9 || c = nlC || c = Char.ofNat 13 ||
    c = Char.ofNat 11 || c = Char.ofNat 12

/-- Model of Python `str.strip()` : drop leading and trailing whitespace. -/
def pyStrip (cs : List Char) : List Char :=
  ((cs.dropWhile isPyWs).reverse.dropWhile isPyWs).reverse

/-- Fuel-indexed scanner behind `pySplit` (fuel only makes the recursion
structural; `pySplit` always supplies enough). -/
def pySplitGo (s0 : Char) (sr : List Char) : Nat → List Char → List (List Char)
  | _, [] => [[]]
  | 0, c :: cs => [c :: cs]
  | fuel + 1, c :: cs =>
    if (s0 :: sr).isPrefixOf (c :: cs) then
      [] :: pySplitGo s0 sr fuel (cs.drop sr.length)
    else
      match pySplitGo s0 sr fuel cs with
      | [] => [[c]]
      | p :: ps => (c :: p) :: ps

/-- Model of Python `str.split(sep)` for a non-empty separator `s0 :: sr`:
splits on every non-overlapping occurrence, scanning left to right. -/
def pySplit (s0 : Char) (sr : List Char) (cs : List Char) : List (List Char) :=
  pySplitGo s0 sr cs.length cs

theorem pySplitGo_congr (s0 : Char) (sr : List Char) :
    ∀ fuel fuel' cs, cs.length ≤ fuel → cs.length ≤ fuel' →
      pySplitGo s0 sr fuel cs = pySplitGo s0 sr fuel' cs := by
  intro fuel
  induction fuel with
  | zero =>
    intro fuel' cs h1 h2
    have hnil : cs = [] := by
      cases cs
      · rfl
      · simp at h1
    subst hnil
    cases fuel' <;> rfl
  | succ fuel ih =>
    intro fuel' cs h1 h2
    cases cs with
    | nil => cases fuel' <;> rfl
    | cons c cs =>
      cases fuel' with
      | zero => simp at h2
      | succ fuel2 =>
        simp only [pySplitGo]
        by_cases hp : (s0 :: sr).isPrefixOf (c :: cs)
        · simp only [hp, if_true]
          rw [ih fuel2 (cs.drop sr.length)
            (by simp only [List.length_drop, List.length_cons] at h1 ⊢; omega)
            (by simp only [List.length_drop, List.length_cons] at h2 ⊢; omega)]
        · simp only [hp, Bool.false_eq_true, if_false]
          rw [ih fuel2 cs (by simp at h1; omega) (by simp at h2; omega)]

theorem pySplit_cons (s0 : Char) (sr : List Char) (c : Char) (cs : List Char) :
    pySplit s0 sr (c :: cs) =
      if (s0 :: sr).isPrefixOf (c :: cs) then
        [] :: pySplit s0 sr (cs.drop sr.length)
      else
        match pySplit s0 sr cs with
        | [] => [[c]]
        | p :: ps => (c :: p) :: ps := by
  unfold pySplit
  rw [show (c :: cs).length = cs.length + 1 from rfl]
  simp only [pySplitGo]
  by_cases hp : (s0 :: sr).isPrefixOf (c :: cs)
  · simp only [hp, if_true]
    rw [pySplitGo_congr s0 sr cs.length (cs.drop sr.length).length (cs.drop sr.length)
      (by simp [List.length_drop]) (le_refl _)]
  · simp only [hp, Bool.false_eq_true, if_false]

theorem pySplit_ne_nil (s0 : Char) (sr cs : List Char) : pySplit s0 sr cs ≠ [] := by
  match cs with
  | [] => simp [pySplit, pySplitGo]
  | c :: cs =>
    rw [pySplit_cons]
    by_cases h : (s0 :: sr).isPrefixOf (c :: cs)
    · simp [h]
    · rcases h2 : pySplit s0 sr cs with _ | ⟨p, ps⟩ <;> simp [h, h2]

/-- Main splitting lemma: a block `a` free of the first separator character
passes through `pySplit` untouched, merging into the head of the split of the
remainder. -/
theorem pySplit_append (s0 : Char) (sr : List Char) (a t : List Char)
    (ha : ∀ x ∈ a, x ≠ s0) :
    pySplit s0 sr (a ++ t) =
      (a ++ (pySplit s0 sr t).headD []) :: (pySplit s0 sr t).tail := by
  induction a with
  | nil =>
    simp only [List.nil_append]
    rcases h : pySplit s0 sr t with _ | ⟨p, ps⟩
    · exact absurd h (pySplit_ne_nil s0 sr t)
    · simp
  | cons c a ih =>
    have hc : c ≠ s0 := ha c (by simp)
    have hpre : ((s0 :: sr).isPrefixOf (c :: (a ++ t))) = false := by
      simp [List.isPrefixOf]
      intro h; exact absurd h.symm hc
    rw [List.cons_append]
    rw [pySplit_cons]
    simp only [hpre, Bool.false_eq_true, if_false]
    rw [ih (fun x hx => ha x (by simp [hx]))]
    simp

/-! ### A small JSON value model

`Json` models the Python values produced by `json.loads`: numbers are kept as
a decimal mantissa/scale pair (`jnum m s` denotes `m / 10^s`), objects keep
their key-value pairs in textual order. -/

mutual
inductive Json where
  | jnull : Json
  | jbool : Bool → Json
  | jnum : Int → Nat → Json
  | jstr : String → Json
  | jarr : JsonList → Json
  | jobj : JsonFields → Json
inductive JsonList where
  | nil : JsonList
  | cons : Json → JsonList → JsonList
inductive JsonFields where
  | fnil : JsonFields
  | fcons : String → Json → JsonFields → JsonFields
end

deriving instance DecidableEq for Json, JsonList, JsonFields

instance : Inhabited Json := ⟨Json.jnull⟩

/-- Decimal digit as a character. -/
def digitChar (n : Nat) : Char := Char.ofNat (48 + n)

/-- Fuel-indexed helper behind `natDigits` (the fuel only makes the recursion
structural; `natDigits` always supplies enough). -/
def natDigitsGo : Nat → Nat → List Char
  | 0, n => [digitChar n]
  | fuel + 1, n =>
    if n < 10 then [digitChar n] else natDigitsGo fuel (n / 10) ++ [digitChar (n % 10)]

/-- Decimal digits of a natural number, most significant first. -/
def natDigits (n : Nat) : List Char := natDigitsGo n n

theorem natDigitsGo_congr :
    ∀ fuel fuel' n, n ≤ fuel → n ≤ fuel' → natDigitsGo fuel n = natDigitsGo fuel' n := by
  intro fuel
  induction fuel with
  | zero =>
    intro fuel' n h1 h2
    have hn : n = 0 := by omega
    subst hn
    cases fuel' with
    | zero => rfl
    | succ f => simp [natDigitsGo]
  | succ fuel ih =>
    intro fuel' n h1 h2
    cases fuel' with
    | zero =>
      have hn : n = 0 := by omega
      subst hn
      simp [natDigitsGo]
    | succ fuel2 =>
      simp only [natDigitsGo]
      by_cases hn : n < 10
      · simp [hn]
      · simp only [hn, if_false]
        rw [ih fuel2 (n / 10) (by omega) (by omega)]

theorem natDigits_rec (n : Nat) :
    natDigits n = if n < 10 then [digitChar n] else natDigits (n / 10) ++ [digitChar (n % 10)] := by
  unfold natDigits
  cases n with
  | zero => simp [natDigitsGo]
  | succ m =>
    simp only [natDigitsGo]
    by_cases hn : m + 1 < 10
    · simp [hn]
    · simp only [hn, if_false]
      rw [natDigitsGo_congr m ((m + 1) / 10) ((m + 1) / 10) (by omega) (le_refl _)]

/-- Left-pad a digit string with zeros to length at least `k`. -/
def padZeros (k : Nat) (ds : List Char) : List Char :=
  List.replicate (k - ds.length) (digitChar 0) ++ ds

/-- Decimal rendering of `m / 10^s`, as `json.dumps` renders the numbers
occurring in a verdict (`"2.5"`, `"3"`, `"-0.05"`, ...). -/
def uChars (n : Nat) (s : Nat) : List Char :=
  if s = 0 then natDigits n
  else
    let ds := padZeros (s + 1) (natDigits n)
    ds.take (ds.length - s) ++ Char.ofNat 46 :: ds.drop (ds.length - s)

def numChars (m : Int) (s : Nat) : List Char :=
  (if m < 0 then [Char.ofNat 45] else []) ++ uChars m.natAbs s

/-- Hexadecimal digit as a (lowercase) character. -/
def hexDigitChar (n : Nat) : Char :=
  if n < 10 then digitChar n else Char.ofNat (87 + n)

/-- JSON string escaping of one character. -/
def escChar (c : Char) : List Char :=
  if c = qcC then [bsC, qcC]
  else if c = bsC then [bsC, bsC]
  else if c = nlC then [bsC, 'n']
  else if c = Char.ofNat 9 then [bsC, 't']
  else if c = Char.ofNat 13 then [bsC, 'r']
  else if c = Char.ofNat 8 then [bsC, 'b']
  else if c = Char.ofNat 12 then [bsC, 'f']
  else if c.toNat < 32 then
    [bsC, 'u', digitChar 0, digitChar 0, hexDigitChar (c.toNat / 16), hexDigitChar (c.toNat % 16)]
  else [c]

def escChars : List Char → List Char
  | [] => []
  | c :: cs => escChar c ++ escChars cs

mutual
/-- Compact JSON serialization of a value (the shape `json.dumps` produces,
modulo inter-token spaces, which `json.loads` ignores anyway). -/
def jsonChars : Json → List Char
  | .jnull => ['n', 'u', 'l', 'l']
  | .jbool true => ['t', 'r', 'u', 'e']
  | .jbool false => ['f', 'a', 'l', 's', 'e']
  | .jnum m s => numChars m s
  | .jstr s => qcC :: escChars s.data ++ [qcC]
  | .jarr l => lbC :: elemsChars l ++ [rbC]
  | .jobj f => lcC :: fieldsChars f ++ [rcC]
def elemsChars : JsonList → List Char
  | .nil => []
  | .cons j .nil => jsonChars j
  | .cons j (.cons j2 tl) => jsonChars j ++ ',' :: elemsChars (.cons j2 tl)
def fieldsChars : JsonFields → List Char
  | .fnil => []
  | .fcons k v .fnil => qcC :: escChars k.data ++ qcC :: ':' :: jsonChars v
  | .fcons k v (.fcons k2 v2 tl) =>
    (qcC :: escChars k.data ++ qcC :: ':' :: jsonChars v) ++ ',' :: fieldsChars (.fcons k2 v2 tl)
end

/-- JSON inter-token whitespace (the set `json.loads` skips). -/
def isJWs (c : Char) : Bool :=
  c = ' ' || c = Char.ofNat 9 || c = nlC || c = Char.ofNat 13

def skipWs : List Char → List Char
  | [] => []
  | c :: cs => if isJWs c then skipWs cs else c :: cs

def isDigitC (c : Char) : Bool := 48 ≤ c.toNat && c.toNat ≤ 57

def digitVal (c : Char) : Nat := c.toNat - 48

/-- Consume a maximal run of decimal digits, returning the accumulated value,
the number of digits consumed, and the remainder. -/
def digitsAux : Nat → Nat → List Char → Nat × Nat × List Char
  | acc, cnt, [] => (acc, cnt, [])
  | acc, cnt, c :: cs =>
    if isDigitC c then digitsAux (acc * 10 + digitVal c) (cnt + 1) cs else (acc, cnt, c :: cs)

def parseDigits (cs : List Char) : Option (Nat × Nat × List Char) :=
  match digitsAux 0 0 cs with
  | (_, 0, _) => none
  | (v, cnt, rest) => some (v, cnt, rest)

/-- Strip an optional leading minus sign. -/
def parseNumSign : List Char → Bool × List Char
  | c :: t => if c = Char.ofNat 45 then (true, t) else (false, c :: t)
  | [] => (false, [])

def applySign (neg : Bool) (n : Nat) : Int := if neg then -(n : Int) else (n : Int)

/-- Parse a JSON number (optional sign, integer part, optional fraction). -/
def parseNum (cs : List Char) : Option (Json × List Char) :=
  match parseDigits (parseNumSign cs).2 with
  | none => none
  | some (ip, _, rest) =>
    match rest with
    | c :: t =>
      if c = Char.ofNat 46 then
        match parseDigits t with
        | none => none
        | some (fp, fcnt, rest2) =>
          some (.jnum (applySign (parseNumSign cs).1 (ip * 10 ^ fcnt + fp)) fcnt, rest2)
      else some (.jnum (applySign (parseNumSign cs).1 ip) 0, c :: t)
    | [] => some (.jnum (applySign (parseNumSign cs).1 ip) 0, [])

def hexVal (c : Char) : Option Nat :=
  if 48 ≤ c.toNat && c.toNat ≤ 57 then some (c.toNat - 48)
  else if 97 ≤ c.toNat && c.toNat ≤ 102 then some (c.toNat - 87)
  else if 65 ≤ c.toNat && c.toNat ≤ 70 then some (c.toNat - 55)
  else none

/-- Parse the body of a JSON string (after the opening quote), strict about
raw control characters, as default Python `json.loads` is. -/
def parseStrBody : List Char → Option (List Char × List Char)
  | [] => none
  | c :: cs =>
    if c = qcC then some ([], cs)
    else if c = bsC then
      match cs with
      | [] => none
      | e :: cs2 =>
        if e = qcC then (parseStrBody cs2).map (fun p => (qcC :: p.1, p.2))
        else if e = bsC then (parseStrBody cs2).map (fun p => (bsC :: p.1, p.2))
        else if e = '/' then (parseStrBody cs2).map (fun p => ('/' :: p.1, p.2))
        else if e = 'b' then (parseStrBody cs2).map (fun p => (Char.ofNat 8 :: p.1, p.2))
        else if e = 'f' then (parseStrBody cs2).map (fun p => (Char.ofNat 12 :: p.1, p.2))
        else if e = 'n' then (parseStrBody cs2).map (fun p => (nlC :: p.1, p.2))
        else if e = 'r' then (parseStrBody cs2).map (fun p => (Char.ofNat 13 :: p.1, p.2))
        else if e = 't' then (parseStrBody cs2).map (fun p => (Char.ofNat 9 :: p.1, p.2))
        else if e = 'u' then
          match cs2 with
          | h1 :: h2 :: h3 :: h4 :: cs3 =>
            match hexVal h1, hexVal h2, hexVal h3, hexVal h4 with
            | some a, some b, some c3, some d =>
              let v := ((a * 16 + b) * 16 + c3) * 16 + d
              if v < 55296 ∨ 57344 ≤ v then
                (parseStrBody cs3).map (fun p => (Char.ofNat v :: p.1, p.2))
              else none
            | _, _, _, _ => none
          | _ => none
        else none
    else if c.toNat < 32 then none
    else (parseStrBody cs).map (fun p => (c :: p.1, p.2))

mutual
/-- Fuel-indexed recursive-descent JSON value parse (model of `json.loads`'s
grammar; exponent notation is not modelled since it never arises here). -/
def parseVal : Nat → List Char → Option (Json × List Char)
  | 0, _ => none
  | fuel + 1, cs =>
    match skipWs cs with
    | [] => none
    | c :: cs1 =>
      if c = qcC then
        (parseStrBody cs1).map (fun p => (Json.jstr (String.mk p.1), p.2))
      else if c = lbC then
        match skipWs cs1 with
        | [] => none
        | c2 :: cs2 =>
          if c2 = rbC then some (.jarr .nil, cs2)
          else (parseElems fuel (c2 :: cs2)).map (fun p => (Json.jarr p.1, p.2))
      else if c = lcC then
        match skipWs cs1 with
        | [] => none
        | c2 :: cs2 =>
          if c2 = rcC then some (.jobj .fnil, cs2)
          else (parseFields fuel (c2 :: cs2)).map (fun p => (Json.jobj p.1, p.2))
      else if c = Char.ofNat 45 || isDigitC c then parseNum (c :: cs1)
      else
        match c :: cs1 with
        | 'n' :: 'u' :: 'l' :: 'l' :: rest => some (.jnull, rest)
        | 't' :: 'r' :: 'u' :: 'e' :: rest => some (.jbool true, rest)
        | 'f' :: 'a' :: 'l' :: 's' :: 'e' :: rest => some (.jbool false, rest)
        | _ => none
def parseElems : Nat → List Char → Option (JsonList × List Char)
  | 0, _ => none
  | fuel + 1, cs =>
    match parseVal fuel cs with
    | none => none
    | some (j, r) =>
      match skipWs r with
      | [] => none
      | c :: r2 =>
        if c = ',' then
          match parseElems fuel r2 with
          | none => none
          | some (tl, r3) => some (.cons j tl, r3)
        else if c = rbC then some (.cons j .nil, r2)
        else none
def parseFields : Nat → List Char → Option (JsonFields × List Char)
  | 0, _ => none
  | fuel + 1, cs =>
    match skipWs cs with
    | [] => none
    | c :: cs1 =>
      if c = qcC then
        match parseStrBody cs1 with
        | none => none
        | some (k, r1) =>
          match skipWs r1 with
          | [] => none
          | c2 :: r2 =>
            if c2 = ':' then
              match parseVal fuel r2 with
              | none => none
              | some (v, r3) =>
                match skipWs r3 with
                | [] => none
                | c3 :: r4 =>
                  if c3 = ',' then
                    match parseFields fuel r4 with
                    | none => none
                    | some (tl, r5) => some (.fcons (String.mk k) v tl, r5)
                  else if c3 = rcC then some (.fcons (String.mk k) v .fnil, r4)
                  else none
            else none
      else none
end

/-- Model of `json.loads`: parse one JSON value, allowing only whitespace
around it; anything else raises `json.JSONDecodeError` (here: `none`). -/
def jloads (cs : List Char) : Option Json :=
  match parseVal (2 * cs.length + 2) cs with
  | some (j, rest) => if skipWs rest = [] then some j else none
  | none => none

/-! ### Round-trip lemmas: digits and numbers -/

theorem natDigits_ne_nil (n : Nat) : natDigits n ≠ [] := by
  rw [natDigits_rec]; split <;> simp

theorem natDigits_digits (n : Nat) : ∀ c ∈ natDigits n, isDigitC c = true := by
  induction n using Nat.strong_induction_on with
  | _ n ih =>
    rw [natDigits_rec]
    by_cases h : n < 10
    · simp only [h, if_true]
      simp
      clear ih
      revert h; revert n
      decide
    · simp only [h, if_false]
      intro c hc
      rcases List.mem_append.mp hc with hc | hc
      · exact ih (n / 10) (Nat.div_lt_self (by omega) (by omega)) c hc
      · have hm : n % 10 < 10 := Nat.mod_lt _ (by omega)
        simp at hc; subst hc
        revert hm; generalize n % 10 = k; revert k; decide

theorem padZeros_digits (k : Nat) (ds : List Char) (h : ∀ c ∈ ds, isDigitC c = true) :
    ∀ c ∈ padZeros k ds, isDigitC c = true := by
  intro c hc
  rcases List.mem_append.mp hc with hc | hc
  · rw [List.eq_of_mem_replicate hc]; decide
  · exact h c hc

/-- Value of a digit string. -/
def valD (ds : List Char) : Nat := ds.foldl (fun a c => a * 10 + digitVal c) 0

theorem valD_shift (ds : List Char) :
    ∀ acc : Nat, ds.foldl (fun a c => a * 10 + digitVal c) acc =
      acc * 10 ^ ds.length + valD ds := by
  induction ds with
  | nil => intro acc; simp [valD]
  | cons c ds ih =>
    intro acc
    simp only [List.foldl_cons, List.length_cons, valD] at *
    rw [ih (acc * 10 + digitVal c), ih (0 * 10 + digitVal c)]
    ring

theorem valD_append (a b : List Char) : valD (a ++ b) = valD a * 10 ^ b.length + valD b := by
  unfold valD
  rw [List.foldl_append, valD_shift]
  rfl

theorem valD_natDigits (n : Nat) : valD (natDigits n) = n := by
  induction n using Nat.strong_induction_on with
  | _ n ih =>
    rw [natDigits_rec]
    by_cases h : n < 10
    · simp only [h, if_true]
      have hd : digitVal (digitChar n) = n := by clear ih; revert h; revert n; decide
      simp [valD, hd]
    · simp only [h, if_false]
      rw [valD_append, ih (n / 10) (Nat.div_lt_self (by omega) (by omega))]
      have hm : n % 10 < 10 := Nat.mod_lt _ (by omega)
      have hd : digitVal (digitChar (n % 10)) = n % 10 := by
        revert hm; generalize n % 10 = k; revert k; decide
      simp [valD, hd]
      omega

theorem valD_replicate_zero (k : Nat) : valD (List.replicate k (digitChar 0)) = 0 := by
  induction k with
  | zero => simp [valD]
  | succ k ih =>
    rw [List.replicate_succ]
    have : valD (digitChar 0 :: List.replicate k (digitChar 0)) =
        List.foldl (fun a c => a * 10 + digitVal c) (0 * 10 + digitVal (digitChar 0))
          (List.replicate k (digitChar 0)) := rfl
    rw [this, valD_shift, ih]
    have h0 : digitVal (digitChar 0) = 0 := by decide
    rw [h0]
    ring

theorem valD_padZeros (k : Nat) (ds : List Char) : valD (padZeros k ds) = valD ds := by
  unfold padZeros
  rw [valD_append, valD_replicate_zero]
  simp

theorem digitsAux_run (ds : List Char) (hds : ∀ c ∈ ds, isDigitC c = true) :
    ∀ (acc cnt : Nat) (rest : List Char),
      digitsAux acc cnt (ds ++ rest) =
        digitsAux (ds.foldl (fun a c => a * 10 + digitVal c) acc) (cnt + ds.length) rest := by
  induction ds with
  | nil => intro acc cnt rest; simp
  | cons c ds ih =>
    intro acc cnt rest
    have hc : isDigitC c = true := hds c (by simp)
    rw [List.cons_append, digitsAux]
    simp only [hc, if_true]
    rw [ih (fun x hx => hds x (by simp [hx]))]
    simp only [List.foldl_cons, List.length_cons]
    congr 1
    omega

theorem digitsAux_stop (acc cnt : Nat) (rest : List Char)
    (h : ∀ c, rest.head? = some c → isDigitC c = false) :
    digitsAux acc cnt rest = (acc, cnt, rest) := by
  match rest with
  | [] => rfl
  | c :: t =>
    have := h c rfl
    rw [digitsAux]
    simp [this]

theorem parseDigits_run (ds rest : List Char) (hds : ∀ c ∈ ds, isDigitC c = true)
    (hne : ds ≠ []) (hrest : ∀ c, rest.head? = some c → isDigitC c = false) :
    parseDigits (ds ++ rest) = some (valD ds, ds.length, rest) := by
  unfold parseDigits
  rw [digitsAux_run ds hds 0 0 rest, digitsAux_stop _ _ _ hrest]
  have hval : ds.foldl (fun a c => a * 10 + digitVal c) 0 = valD ds := rfl
  obtain ⟨k, hk⟩ : ∃ k, ds.length = k + 1 :=
    ⟨ds.length - 1, by have := List.length_pos.mpr hne; omega⟩
  rw [hval]
  simp only [Nat.zero_add, hk]


/-- The character immediately after a serialized JSON value, in any position
inside a bigger serialized value, is a comma, a closing bracket or the end. -/
def SerDelim (rest : List Char) : Prop :=
  rest = [] ∨ ∃ c t, rest = c :: t ∧ (c = ',' ∨ c = rbC ∨ c = rcC)

theorem serDelim_not_digit {rest : List Char} (h : SerDelim rest) :
    ∀ c, rest.head? = some c → isDigitC c = false := by
  intro c hc
  rcases h with h | ⟨d, t, rfl, hd⟩
  · subst h; simp at hc
  · simp at hc; subst hc
    rcases hd with rfl | rfl | rfl <;> decide

theorem padZeros_length (k : Nat) (ds : List Char) : (padZeros k ds).length = max k ds.length := by
  unfold padZeros
  simp only [List.length_append, List.length_replicate]
  omega

theorem uChars_head (n s : Nat) :
    ∃ d t, uChars n s = d :: t ∧ isDigitC d = true := by
  unfold uChars
  split
  · rcases h : natDigits n with _ | ⟨d, t⟩
    · exact absurd h (natDigits_ne_nil n)
    · exact ⟨d, t, rfl, natDigits_digits n d (by rw [h]; simp)⟩
  · rename_i hs
    simp only
    have hds := padZeros_digits (s + 1) (natDigits n) (natDigits_digits n)
    have hlen : (padZeros (s + 1) (natDigits n)).length ≥ s + 1 := by
      rw [padZeros_length]; omega
    rcases h : (padZeros (s + 1) (natDigits n)).take
        ((padZeros (s + 1) (natDigits n)).length - s) with _ | ⟨d, t⟩
    · exfalso
      have hlt : ((padZeros (s + 1) (natDigits n)).take
          ((padZeros (s + 1) (natDigits n)).length - s)).length =
          (padZeros (s + 1) (natDigits n)).length - s := by
        rw [List.length_take]; omega
      rw [h] at hlt
      simp at hlt
      omega
    · refine ⟨d, t ++ Char.ofNat 46 :: (padZeros (s + 1) (natDigits n)).drop
        ((padZeros (s + 1) (natDigits n)).length - s), ?_, ?_⟩
      · simp
      · exact hds d (List.mem_of_mem_take (by rw [h]; simp))

theorem parseNum_uChars (n s : Nat) (neg : Bool) (rest : List Char) (h : SerDelim rest) :
    parseNum ((if neg then [Char.ofNat 45] else []) ++ uChars n s ++ rest) =
      some (.jnum (applySign neg n) s, rest) := by
  obtain ⟨d, t, hu, hd⟩ := uChars_head n s
  have hsign : parseNumSign ((if neg then [Char.ofNat 45] else []) ++ uChars n s ++ rest) =
      (neg, uChars n s ++ rest) := by
    cases neg
    · simp only [Bool.false_eq_true, if_false, List.nil_append]
      rw [hu, List.cons_append]
      have hne : d ≠ Char.ofNat 45 := by
        intro e; subst e; revert hd; decide
      simp only [parseNumSign, if_neg hne]
    · simp [parseNumSign]
  unfold parseNum
  rw [hsign]
  by_cases hs : s = 0
  · subst hs
    have hu0 : uChars n 0 = natDigits n := by unfold uChars; simp
    rw [hu0, List.append_assoc] at *
    rw [parseDigits_run (natDigits n) rest (natDigits_digits n) (natDigits_ne_nil n)
      (serDelim_not_digit h)]
    dsimp only
    simp only [valD_natDigits]
    rcases h with hrest | ⟨c, t2, rfl, hc⟩
    · subst hrest; simp
    · have hcdot : c ≠ Char.ofNat 46 := by
        rcases hc with rfl | rfl | rfl <;> decide
      simp [hcdot]
  · have hdsdig : ∀ c ∈ padZeros (s + 1) (natDigits n), isDigitC c = true :=
      padZeros_digits (s + 1) (natDigits n) (natDigits_digits n)
    have hdslen : (padZeros (s + 1) (natDigits n)).length ≥ s + 1 := by
      rw [padZeros_length]; omega
    have hs1 : uChars n s =
        (padZeros (s + 1) (natDigits n)).take ((padZeros (s + 1) (natDigits n)).length - s) ++
          Char.ofNat 46 ::
            (padZeros (s + 1) (natDigits n)).drop ((padZeros (s + 1) (natDigits n)).length - s) := by
      unfold uChars; rw [if_neg hs]
    generalize hds : padZeros (s + 1) (natDigits n) = ds at *
    generalize hkk : ds.length - s = k at *
    have hvds : valD ds = n := by rw [← hds, valD_padZeros, valD_natDigits]
    have htlen : (ds.take k).length = k := by rw [List.length_take]; omega
    have hdlen : (ds.drop k).length = s := by rw [List.length_drop]; omega
    have htne : ds.take k ≠ [] := by
      intro e; rw [e] at htlen; simp at htlen; omega
    have hdne : ds.drop k ≠ [] := by
      intro e; rw [e] at hdlen; simp at hdlen; omega
    rw [hs1, List.append_assoc, List.cons_append]
    rw [parseDigits_run (ds.take k) _ (fun c hc => hdsdig c (List.mem_of_mem_take hc)) htne
      (by intro c hc; simp at hc; subst hc; decide)]
    dsimp only
    rw [if_pos rfl]
    rw [parseDigits_run (ds.drop k) rest (fun c hc => hdsdig c (List.mem_of_mem_drop hc)) hdne
      (serDelim_not_digit h)]
    dsimp only
    have hval : valD (ds.take k) * 10 ^ s + valD (ds.drop k) = n := by
      have hap := valD_append (ds.take k) (ds.drop k)
      rw [List.take_append_drop, hdlen, hvds] at hap
      omega
    rw [hdlen, hval]

theorem parseNum_numChars (m : Int) (s : Nat) (rest : List Char) (h : SerDelim rest) :
    parseNum (numChars m s ++ rest) = some (.jnum m s, rest) := by
  unfold numChars
  by_cases hm : m < 0
  · rw [if_pos hm, List.append_assoc]
    have h1 := parseNum_uChars m.natAbs s true rest h
    rw [show applySign true m.natAbs = m by
      unfold applySign
      simp only [if_pos]
      rcases Int.natAbs_eq m with he | he <;>
        (have h0 : (0 : Int) ≤ (m.natAbs : Int) := Int.natCast_nonneg _; omega)] at h1
    rw [List.append_assoc] at h1
    exact h1
  · rw [if_neg hm, List.append_assoc]
    have h1 := parseNum_uChars m.natAbs s false rest h
    rw [show applySign false m.natAbs = m by
      unfold applySign
      simp only [Bool.false_eq_true, if_false]
      rcases Int.natAbs_eq m with he | he <;>
        (have h0 : (0 : Int) ≤ (m.natAbs : Int) := Int.natCast_nonneg _; omega)] at h1
    rw [List.append_assoc] at h1
    exact h1

/-! ### Round-trip lemmas: strings -/

theorem hexVal_hexDigitChar : ∀ n, n < 16 → hexVal (hexDigitChar n) = some n := by decide

theorem char_ne_of_toNat {c d : Char} (h : c.toNat ≠ d.toNat) : c ≠ d :=
  fun e => h (by rw [e])

theorem parseStrBody_esc_step (c : Char) (X cs' rest : List Char)
    (hX : parseStrBody X = some (cs', rest)) :
    parseStrBody (escChar c ++ X) = some (c :: cs', rest) := by
  by_cases h1 : c = qcC
  · subst h1
    simp only [escChar, if_pos rfl, List.cons_append, List.nil_append]
    rw [parseStrBody.eq_def]
    simp [show (bsC : Char) ≠ qcC from by decide, hX]
  · by_cases h2 : c = bsC
    · subst h2
      simp only [escChar, if_neg h1, if_pos rfl, List.cons_append, List.nil_append]
      rw [parseStrBody.eq_def]
      simp [show (bsC : Char) ≠ qcC from by decide, hX]
    · by_cases h3 : c = nlC
      · subst h3
        simp only [escChar, if_neg h1, if_neg h2, if_pos rfl, List.cons_append, List.nil_append]
        rw [parseStrBody.eq_def]
        simp [show (bsC : Char) ≠ qcC from by decide,
          show ('n' : Char) ≠ qcC from by decide, show ('n' : Char) ≠ bsC from by decide,
          show ('n' : Char) ≠ '/' from by decide, show ('n' : Char) ≠ 'b' from by decide,
          show ('n' : Char) ≠ 'f' from by decide, hX]
      · by_cases h4 : c = Char.ofNat 9
        · subst h4
          simp only [escChar, if_neg h1, if_neg h2, if_neg h3, if_pos rfl, List.cons_append,
            List.nil_append]
          rw [parseStrBody.eq_def]
          simp [show (bsC : Char) ≠ qcC from by decide,
            show ('t' : Char) ≠ qcC from by decide, show ('t' : Char) ≠ bsC from by decide,
            show ('t' : Char) ≠ '/' from by decide, show ('t' : Char) ≠ 'b' from by decide,
            show ('t' : Char) ≠ 'f' from by decide, show ('t' : Char) ≠ 'n' from by decide,
            show ('t' : Char) ≠ 'r' from by decide, hX]
        · by_cases h5 : c = Char.ofNat 13
          · subst h5
            simp only [escChar, if_neg h1, if_neg h2, if_neg h3, if_neg h4, if_pos rfl,
              List.cons_append, List.nil_append]
            rw [parseStrBody.eq_def]
            simp [show (bsC : Char) ≠ qcC from by decide,
              show ('r' : Char) ≠ qcC from by decide, show ('r' : Char) ≠ bsC from by decide,
              show ('r' : Char) ≠ '/' from by decide, show ('r' : Char) ≠ 'b' from by decide,
              show ('r' : Char) ≠ 'f' from by decide, show ('r' : Char) ≠ 'n' from by decide, hX]
          · by_cases h6 : c = Char.ofNat 8
            · subst h6
              simp only [escChar, if_neg h1, if_neg h2, if_neg h3, if_neg h4, if_neg h5,
                if_pos rfl, List.cons_append, List.nil_append]
              rw [parseStrBody.eq_def]
              simp [show (bsC : Char) ≠ qcC from by decide,
                show ('b' : Char) ≠ qcC from by decide, show ('b' : Char) ≠ bsC from by decide,
                show ('b' : Char) ≠ '/' from by decide, hX]
            · by_cases h7 : c = Char.ofNat 12
              · subst h7
                simp only [escChar, if_neg h1, if_neg h2, if_neg h3, if_neg h4, if_neg h5,
                  if_neg h6, if_pos rfl, List.cons_append, List.nil_append]
                rw [parseStrBody.eq_def]
                simp [show (bsC : Char) ≠ qcC from by decide,
                  show ('f' : Char) ≠ qcC from by decide, show ('f' : Char) ≠ bsC from by decide,
                  show ('f' : Char) ≠ '/' from by decide, show ('f' : Char) ≠ 'b' from by decide,
                  hX]
              · by_cases h8 : c.toNat < 32
                · simp only [escChar, if_neg h1, if_neg h2, if_neg h3, if_neg h4, if_neg h5,
                    if_neg h6, if_neg h7, if_pos h8, List.cons_append, List.nil_append]
                  rw [parseStrBody.eq_def]
                  have hv3 : hexVal (hexDigitChar (c.toNat / 16)) = some (c.toNat / 16) :=
                    hexVal_hexDigitChar _ (by omega)
                  have hv4 : hexVal (hexDigitChar (c.toNat % 16)) = some (c.toNat % 16) :=
                    hexVal_hexDigitChar _ (by omega)
                  have hchar :
                      Char.ofNat (((0 * 16 + 0) * 16 + c.toNat / 16) * 16 + c.toNat % 16) = c := by
                    rw [show ((0 * 16 + 0) * 16 + c.toNat / 16) * 16 + c.toNat % 16 = c.toNat by
                      omega, Char.ofNat_toNat]
                  have hguard : ((0 * 16 + 0) * 16 + c.toNat / 16) * 16 + c.toNat % 16 < 55296 ∨
                      57344 ≤ ((0 * 16 + 0) * 16 + c.toNat / 16) * 16 + c.toNat % 16 :=
                    Or.inl (by omega)
                  simp [show (bsC : Char) ≠ qcC from by decide,
                    show ('u' : Char) ≠ qcC from by decide,
                    show ('u' : Char) ≠ bsC from by decide,
                    show ('u' : Char) ≠ '/' from by decide,
                    show ('u' : Char) ≠ 'b' from by decide,
                    show ('u' : Char) ≠ 'f' from by decide,
                    show ('u' : Char) ≠ 'n' from by decide,
                    show ('u' : Char) ≠ 'r' from by decide,
                    show ('u' : Char) ≠ 't' from by decide,
                    show hexVal (digitChar 0) = some 0 from by decide,
                    hv3, hv4, hguard, hchar, hX]
                  refine ⟨Or.inl (by omega), ?_⟩
                  rw [show c.toNat / 16 * 16 + c.toNat % 16 = c.toNat by omega, Char.ofNat_toNat]
                · simp only [escChar, if_neg h1, if_neg h2, if_neg h3, if_neg h4, if_neg h5,
                    if_neg h6, if_neg h7, if_neg h8, List.singleton_append]
                  rw [parseStrBody.eq_def]
                  simp [h1, h2, h8, hX]

theorem parseStrBody_escChars (cs : List Char) :
    ∀ rest, parseStrBody (escChars cs ++ qcC :: rest) = some (cs, rest) := by
  induction cs with
  | nil =>
    intro rest
    simp only [escChars, List.nil_append]
    rw [parseStrBody.eq_def]
    simp
  | cons c cs ih =>
    intro rest
    rw [escChars, List.append_assoc]
    exact parseStrBody_esc_step c _ cs rest (ih rest)

/-! ### Round-trip: whole values -/

theorem skipWs_cons_of {c : Char} (h : isJWs c = false) (cs : List Char) :
    skipWs (c :: cs) = c :: cs := by
  rw [skipWs]
  simp [h]

theorem digit_toNat {d : Char} (hd : isDigitC d = true) : 48 ≤ d.toNat ∧ d.toNat ≤ 57 := by
  simpa [isDigitC] using hd

theorem isJWs_false_of_digit {d : Char} (hd : isDigitC d = true) : isJWs d = false := by
  obtain ⟨h1, h2⟩ := digit_toNat hd
  cases h : isJWs d
  · rfl
  · exfalso
    simp [isJWs] at h
    rcases h with ((rfl | rfl) | rfl) | rfl
    · exact absurd h1 (by decide)
    · exact absurd h1 (by decide)
    · exact absurd h1 (by decide)
    · exact absurd h1 (by decide)

theorem jsonChars_head (j : Json) :
    ∃ c t, jsonChars j = c :: t ∧ isJWs c = false ∧ c ≠ rbC ∧ c ≠ rcC := by
  match j with
  | .jnull => exact ⟨'n', _, rfl, by decide, by decide, by decide⟩
  | .jbool true => exact ⟨'t', _, rfl, by decide, by decide, by decide⟩
  | .jbool false => exact ⟨'f', _, rfl, by decide, by decide, by decide⟩
  | .jstr s => exact ⟨qcC, _, rfl, by decide, by decide, by decide⟩
  | .jarr l => exact ⟨lbC, _, rfl, by decide, by decide, by decide⟩
  | .jobj f => exact ⟨lcC, _, rfl, by decide, by decide, by decide⟩
  | .jnum m s =>
    show ∃ c t, numChars m s = c :: t ∧ _
    unfold numChars
    by_cases hm : m < 0
    · exact ⟨Char.ofNat 45, _, by rw [if_pos hm]; rfl, by decide, by decide, by decide⟩
    · rw [if_neg hm, List.nil_append]
      obtain ⟨d, t, hu, hd⟩ := uChars_head m.natAbs s
      obtain ⟨h1, h2⟩ := digit_toNat hd
      refine ⟨d, t, hu, isJWs_false_of_digit hd, ?_, ?_⟩
      · exact char_ne_of_toNat (by rw [show rbC.toNat = 93 from by decide]; omega)
      · exact char_ne_of_toNat (by rw [show rcC.toNat = 125 from by decide]; omega)

theorem jsonChars_ne_nil (j : Json) : jsonChars j ≠ [] := by
  obtain ⟨c, t, h, -⟩ := jsonChars_head j
  rw [h]
  simp

theorem jsonChars_length_pos (j : Json) : 1 ≤ (jsonChars j).length := by
  have := jsonChars_ne_nil j
  cases h : jsonChars j
  · exact absurd h this
  · simp

theorem numChars_head (m : Int) (s : Nat) :
    ∃ d t, numChars m s = d :: t ∧ (d = Char.ofNat 45 || isDigitC d) = true := by
  unfold numChars
  by_cases hm : m < 0
  · exact ⟨Char.ofNat 45, _, by rw [if_pos hm]; rfl, by decide⟩
  · rw [if_neg hm, List.nil_append]
    obtain ⟨d, t, hu, hd⟩ := uChars_head m.natAbs s
    exact ⟨d, t, hu, by rw [hd]; simp⟩

theorem num_head_props {d : Char} (hcond : (d = Char.ofNat 45 || isDigitC d) = true) :
    isJWs d = false ∧ d ≠ qcC ∧ d ≠ lbC ∧ d ≠ lcC := by
  rw [Bool.or_eq_true] at hcond
  rcases hcond with h | h
  · have hd : d = Char.ofNat 45 := of_decide_eq_true h
    subst hd
    exact ⟨by decide, by decide, by decide, by decide⟩
  · obtain ⟨h1, h2⟩ := digit_toNat h
    refine ⟨isJWs_false_of_digit h, ?_, ?_, ?_⟩
    · exact char_ne_of_toNat (by rw [show qcC.toNat = 34 from by decide]; omega)
    · exact char_ne_of_toNat (by rw [show lbC.toNat = 91 from by decide]; omega)
    · exact char_ne_of_toNat (by rw [show lcC.toNat = 123 from by decide]; omega)

theorem parseVal_succ_num (fuel : Nat) (d : Char) (cs1 : List Char)
    (hcond : (d = Char.ofNat 45 || isDigitC d) = true) :
    parseVal (fuel + 1) (d :: cs1) = parseNum (d :: cs1) := by
  obtain ⟨hws, h1, h2, h3⟩ := num_head_props hcond
  rw [parseVal, skipWs_cons_of hws]
  simp only [if_neg h1, if_neg h2, if_neg h3, if_pos hcond]

theorem parse_roundtrip :
    ∀ fuel : Nat,
      (∀ j rest, (jsonChars j).length < fuel → SerDelim rest →
        parseVal fuel (jsonChars j ++ rest) = some (j, rest)) ∧
      (∀ l rest, l ≠ JsonList.nil → (elemsChars l).length + 1 < fuel →
        parseElems fuel (elemsChars l ++ rbC :: rest) = some (l, rest)) ∧
      (∀ f rest, f ≠ JsonFields.fnil → (fieldsChars f).length + 1 < fuel →
        parseFields fuel (fieldsChars f ++ rcC :: rest) = some (f, rest)) := by
  intro fuel
  induction fuel with
  | zero =>
    refine ⟨?_, ?_, ?_⟩ <;> (intros; omega)
  | succ fuel ih =>
    obtain ⟨ihV, ihL, ihF⟩ := ih
    refine ⟨?_, ?_, ?_⟩
    · -- parseVal at fuel + 1
      intro j rest hlen hrest
      match j with
      | .jnull =>
        rw [parseVal]
        rw [show jsonChars Json.jnull ++ rest = 'n' :: 'u' :: 'l' :: 'l' :: rest from rfl]
        rw [skipWs_cons_of (by decide)]
        simp [show ('n' : Char) ≠ qcC from by decide, show ('n' : Char) ≠ lbC from by decide,
          show ('n' : Char) ≠ lcC from by decide, show ('n' : Char) ≠ Char.ofNat 45 from by decide,
          show isDigitC 'n' = false from by decide]
      | .jbool true =>
        rw [parseVal]
        rw [show jsonChars (Json.jbool true) ++ rest = 't' :: 'r' :: 'u' :: 'e' :: rest from rfl]
        rw [skipWs_cons_of (by decide)]
        simp [show ('t' : Char) ≠ qcC from by decide, show ('t' : Char) ≠ lbC from by decide,
          show ('t' : Char) ≠ lcC from by decide, show ('t' : Char) ≠ Char.ofNat 45 from by decide,
          show isDigitC 't' = false from by decide]
      | .jbool false =>
        rw [parseVal]
        rw [show jsonChars (Json.jbool false) ++ rest =
          'f' :: 'a' :: 'l' :: 's' :: 'e' :: rest from rfl]
        rw [skipWs_cons_of (by decide)]
        simp [show ('f' : Char) ≠ qcC from by decide, show ('f' : Char) ≠ lbC from by decide,
          show ('f' : Char) ≠ lcC from by decide, show ('f' : Char) ≠ Char.ofNat 45 from by decide,
          show isDigitC 'f' = false from by decide]
      | .jnum m s =>
        have hnum := parseNum_numChars m s rest hrest
        obtain ⟨d, t, hnc, hcond⟩ := numChars_head m s
        rw [show jsonChars (Json.jnum m s) = numChars m s from rfl]
        rw [hnc, List.cons_append, parseVal_succ_num fuel d _ hcond,
          ← List.cons_append, ← hnc]
        exact hnum
      | .jstr s =>
        rw [parseVal]
        rw [show jsonChars (Json.jstr s) ++ rest =
          qcC :: (escChars s.data ++ qcC :: rest) from by
            rw [show jsonChars (Json.jstr s) = qcC :: escChars s.data ++ [qcC] from rfl]
            simp]
        rw [skipWs_cons_of (by decide)]
        simp only [if_pos rfl]
        rw [parseStrBody_escChars s.data rest]
        rfl
      | .jarr l =>
        rw [parseVal]
        rw [show jsonChars (Json.jarr l) ++ rest =
          lbC :: (elemsChars l ++ rbC :: rest) from by
            rw [show jsonChars (Json.jarr l) = lbC :: elemsChars l ++ [rbC] from rfl]
            simp]
        rw [skipWs_cons_of (by decide)]
        simp only [if_neg (show ¬(lbC : Char) = qcC from by decide), if_pos rfl]
        match l with
        | .nil =>
          rw [show elemsChars JsonList.nil ++ rbC :: rest = rbC :: rest from rfl]
          rw [skipWs_cons_of (by decide)]
          simp
        | .cons j' tl =>
          obtain ⟨c, t, hc, hws, hrb, hrc⟩ := jsonChars_head j'
          obtain ⟨u, hu⟩ : ∃ u, elemsChars (JsonList.cons j' tl) ++ rbC :: rest = c :: u := by
            match tl with
            | .nil =>
              rw [show elemsChars (JsonList.cons j' JsonList.nil) = jsonChars j' from rfl, hc]
              exact ⟨t ++ rbC :: rest, by simp⟩
            | .cons j2 tl2 =>
              rw [show elemsChars (JsonList.cons j' (JsonList.cons j2 tl2)) =
                jsonChars j' ++ ',' :: elemsChars (JsonList.cons j2 tl2) from rfl, hc]
              exact ⟨t ++ ',' :: (elemsChars (JsonList.cons j2 tl2) ++ rbC :: rest), by simp⟩
          rw [hu, skipWs_cons_of hws]
          simp only [if_neg hrb]
          rw [← hu]
          have hlen2 : (elemsChars (JsonList.cons j' tl)).length + 1 < fuel := by
            have he : (jsonChars (Json.jarr (JsonList.cons j' tl))).length =
                (elemsChars (JsonList.cons j' tl)).length + 2 := by
              rw [show jsonChars (Json.jarr (JsonList.cons j' tl)) =
                lbC :: elemsChars (JsonList.cons j' tl) ++ [rbC] from rfl]
              simp
            omega
          rw [ihL (JsonList.cons j' tl) rest (by simp) hlen2]
          rfl
      | .jobj f =>
        rw [parseVal]
        rw [show jsonChars (Json.jobj f) ++ rest =
          lcC :: (fieldsChars f ++ rcC :: rest) from by
            rw [show jsonChars (Json.jobj f) = lcC :: fieldsChars f ++ [rcC] from rfl]
            simp]
        rw [skipWs_cons_of (by decide)]
        simp only [if_neg (show ¬(lcC : Char) = qcC from by decide),
          if_neg (show ¬(lcC : Char) = lbC from by decide), if_pos rfl]
        match f with
        | .fnil =>
          rw [show fieldsChars JsonFields.fnil ++ rcC :: rest = rcC :: rest from rfl]
          rw [skipWs_cons_of (by decide)]
          simp
        | .fcons k v tl =>
          obtain ⟨u, hu⟩ : ∃ u, fieldsChars (JsonFields.fcons k v tl) ++ rcC :: rest =
              qcC :: u := by
            match tl with
            | .fnil =>
              rw [show fieldsChars (JsonFields.fcons k v JsonFields.fnil) =
                qcC :: escChars k.data ++ qcC :: ':' :: jsonChars v from rfl]
              exact ⟨escChars k.data ++ qcC :: ':' :: (jsonChars v ++ rcC :: rest), by simp⟩
            | .fcons k2 v2 tl2 =>
              rw [show fieldsChars (JsonFields.fcons k v (JsonFields.fcons k2 v2 tl2)) =
                (qcC :: escChars k.data ++ qcC :: ':' :: jsonChars v) ++
                  ',' :: fieldsChars (JsonFields.fcons k2 v2 tl2) from rfl]
              exact ⟨escChars k.data ++ qcC :: ':' :: (jsonChars v ++
                ',' :: (fieldsChars (JsonFields.fcons k2 v2 tl2) ++ rcC :: rest)), by simp⟩
          rw [hu, skipWs_cons_of (by decide)]
          simp only [if_neg (show ¬(qcC : Char) = rcC from by decide)]
          rw [← hu]
          have hlen2 : (fieldsChars (JsonFields.fcons k v tl)).length + 1 < fuel := by
            have he : (jsonChars (Json.jobj (JsonFields.fcons k v tl))).length =
                (fieldsChars (JsonFields.fcons k v tl)).length + 2 := by
              rw [show jsonChars (Json.jobj (JsonFields.fcons k v tl)) =
                lcC :: fieldsChars (JsonFields.fcons k v tl) ++ [rcC] from rfl]
              simp
            omega
          rw [ihF (JsonFields.fcons k v tl) rest (by simp) hlen2]
          rfl
    · -- parseElems at fuel + 1
      intro l rest hne hlen
      match l with
      | .nil => exact absurd rfl hne
      | .cons j tl =>
        rw [parseElems]
        match tl with
        | .nil =>
          rw [show elemsChars (JsonList.cons j JsonList.nil) = jsonChars j from rfl] at *
          rw [ihV j (rbC :: rest) (by omega) (Or.inr ⟨rbC, rest, rfl, by simp⟩)]
          simp only [skipWs_cons_of (show isJWs rbC = false from by decide),
            if_neg (show ¬(rbC : Char) = ',' from by decide), if_pos rfl]
          simp
        | .cons j2 tl2 =>
          rw [show elemsChars (JsonList.cons j (JsonList.cons j2 tl2)) =
            jsonChars j ++ ',' :: elemsChars (JsonList.cons j2 tl2) from rfl] at *
          rw [List.append_assoc, List.cons_append]
          rw [ihV j (',' :: (elemsChars (JsonList.cons j2 tl2) ++ rbC :: rest))
            (by simp at hlen; have := jsonChars_length_pos j; omega)
            (Or.inr ⟨',', _, rfl, by simp⟩)]
          simp only [skipWs_cons_of (show isJWs ',' = false from by decide), if_pos rfl]
          rw [ihL (JsonList.cons j2 tl2) rest (by simp)
            (by simp at hlen; have := jsonChars_length_pos j; omega)]
          simp
    · -- parseFields at fuel + 1
      intro f rest hne hlen
      match f with
      | .fnil => exact absurd rfl hne
      | .fcons k v tl =>
        rw [parseFields]
        match tl with
        | .fnil =>
          rw [show fieldsChars (JsonFields.fcons k v JsonFields.fnil) =
            qcC :: escChars k.data ++ qcC :: ':' :: jsonChars v from rfl] at *
          rw [show (qcC :: escChars k.data ++ qcC :: ':' :: jsonChars v) ++ rcC :: rest =
            qcC :: (escChars k.data ++ qcC :: (':' :: (jsonChars v ++ rcC :: rest))) from by simp]
          rw [skipWs_cons_of (by decide)]
          simp only [if_pos rfl]
          rw [parseStrBody_escChars k.data (':' :: (jsonChars v ++ rcC :: rest))]
          simp only [skipWs_cons_of (show isJWs ':' = false from by decide), if_pos rfl]
          rw [ihV v (rcC :: rest) (by simp at hlen; omega)
            (Or.inr ⟨rcC, rest, rfl, by simp⟩)]
          simp only [skipWs_cons_of (show isJWs rcC = false from by decide),
            if_neg (show ¬(rcC : Char) = ',' from by decide), if_pos rfl]
          simp
        | .fcons k2 v2 tl2 =>
          rw [show fieldsChars (JsonFields.fcons k v (JsonFields.fcons k2 v2 tl2)) =
            (qcC :: escChars k.data ++ qcC :: ':' :: jsonChars v) ++
              ',' :: fieldsChars (JsonFields.fcons k2 v2 tl2) from rfl] at *
          rw [show ((qcC :: escChars k.data ++ qcC :: ':' :: jsonChars v) ++
              ',' :: fieldsChars (JsonFields.fcons k2 v2 tl2)) ++ rcC :: rest =
            qcC :: (escChars k.data ++ qcC :: (':' :: (jsonChars v ++
              ',' :: (fieldsChars (JsonFields.fcons k2 v2 tl2) ++ rcC :: rest)))) from by simp]
          rw [skipWs_cons_of (by decide)]
          simp only [if_pos rfl]
          rw [parseStrBody_escChars k.data _]
          simp only [skipWs_cons_of (show isJWs ':' = false from by decide), if_pos rfl]
          rw [ihV v (',' :: (fieldsChars (JsonFields.fcons k2 v2 tl2) ++ rcC :: rest))
            (by simp at hlen; omega) (Or.inr ⟨',', _, rfl, by simp⟩)]
          simp only [skipWs_cons_of (show isJWs ',' = false from by decide), if_pos rfl]
          rw [ihF (JsonFields.fcons k2 v2 tl2) rest (by simp) (by simp at hlen; omega)]
          simp

theorem jloads_jsonChars (j : Json) : jloads (jsonChars j) = some j := by
  unfold jloads
  have h := (parse_roundtrip (2 * (jsonChars j).length + 2)).1 j [] (by omega) (Or.inl rfl)
  rw [List.append_nil] at h
  rw [h]
  rfl

theorem mem_of_getLastH {α : Type _} {l : List α} {a : α} (h : l.getLast? = some a) : a ∈ l := by
  rw [← List.head?_reverse] at h
  have hm : a ∈ l.reverse := by
    cases hl : l.reverse with
    | nil => rw [hl] at h; simp at h
    | cons x xs =>
      rw [hl] at h
      simp at h
      subst h
      simp
  simpa using hm

theorem dropWhile_id_of_head {p : Char → Bool} {cs : List Char}
    (h : ∀ c, cs.head? = some c → p c = false) : cs.dropWhile p = cs := by
  cases cs with
  | nil => rfl
  | cons c t =>
    rw [List.dropWhile_cons, h c rfl]
    simp

/-- `str.strip` leaves a string alone when neither end is whitespace. -/
theorem pyStrip_id {cs : List Char} (h1 : ∀ c, cs.head? = some c → isPyWs c = false)
    (h2 : ∀ c, cs.getLast? = some c → isPyWs c = false) : pyStrip cs = cs := by
  unfold pyStrip
  rw [dropWhile_id_of_head h1]
  rw [dropWhile_id_of_head (fun c hc => h2 c (by rwa [List.head?_reverse] at hc))]
  exact List.reverse_reverse cs

/-- `str.strip` of a newline-wrapped block whose inner ends are not whitespace. -/
theorem pyStrip_nl_wrap {cs : List Char} (h1 : ∀ c, cs.head? = some c → isPyWs c = false)
    (h2 : ∀ c, cs.getLast? = some c → isPyWs c = false) :
    pyStrip (nlC :: (cs ++ [nlC])) = cs := by
  unfold pyStrip
  rw [List.dropWhile_cons]
  rw [show isPyWs nlC = true from by decide]
  simp only [if_true]
  cases cs with
  | nil => rfl
  | cons c t =>
    rw [List.cons_append, List.dropWhile_cons, h1 c rfl]
    simp only [Bool.false_eq_true, if_false]
    rw [show (c :: (t ++ [nlC])).reverse = nlC :: (c :: t).reverse from by simp]
    rw [List.dropWhile_cons]
    rw [show isPyWs nlC = true from by decide]
    simp only [if_true]
    rw [dropWhile_id_of_head (fun d hd => h2 d (by rwa [List.head?_reverse] at hd))]
    exact List.reverse_reverse (c :: t)

theorem isPyWs_false_of_big {d : Char} (h : 33 ≤ d.toNat) : isPyWs d = false := by
  cases hp : isPyWs d
  · rfl
  · exfalso
    simp [isPyWs] at hp
    rcases hp with ((((rfl | rfl) | rfl) | rfl) | rfl) | rfl <;> exact absurd h (by decide)

theorem uChars_last (n s : Nat) :
    ∀ c, (uChars n s).getLast? = some c → isDigitC c = true := by
  intro c hc
  unfold uChars at hc
  split at hc
  · exact natDigits_digits n c (mem_of_getLastH hc)
  · rename_i hs
    simp only at hc
    have hds := padZeros_digits (s + 1) (natDigits n) (natDigits_digits n)
    have hlen : (padZeros (s + 1) (natDigits n)).length ≥ s + 1 := by
      rw [padZeros_length]; omega
    rw [List.getLast?_append_cons] at hc
    have hdlen : ((padZeros (s + 1) (natDigits n)).drop
        ((padZeros (s + 1) (natDigits n)).length - s)).length = s := by
      rw [List.length_drop]; omega
    rcases hd : (padZeros (s + 1) (natDigits n)).drop
        ((padZeros (s + 1) (natDigits n)).length - s) with _ | ⟨d, ds⟩
    · rw [hd] at hdlen; simp at hdlen; omega
    · rw [hd, List.getLast?_cons_cons] at hc
      have hmem : c ∈ d :: ds := mem_of_getLastH hc
      rw [← hd] at hmem
      exact hds c (List.mem_of_mem_drop hmem)

theorem jsonChars_head_py (j : Json) :
    ∀ c, (jsonChars j).head? = some c → isPyWs c = false := by
  intro c hc
  match j with
  | .jnull => simp [show jsonChars Json.jnull = ['n', 'u', 'l', 'l'] from rfl] at hc
              subst hc; decide
  | .jbool true => simp [show jsonChars (Json.jbool true) = ['t', 'r', 'u', 'e'] from rfl] at hc
                   subst hc; decide
  | .jbool false =>
    simp [show jsonChars (Json.jbool false) = ['f', 'a', 'l', 's', 'e'] from rfl] at hc
    subst hc; decide
  | .jstr s =>
    rw [show jsonChars (Json.jstr s) = qcC :: escChars s.data ++ [qcC] from rfl] at hc
    simp at hc; subst hc; decide
  | .jarr l =>
    rw [show jsonChars (Json.jarr l) = lbC :: elemsChars l ++ [rbC] from rfl] at hc
    simp at hc; subst hc; decide
  | .jobj f =>
    rw [show jsonChars (Json.jobj f) = lcC :: fieldsChars f ++ [rcC] from rfl] at hc
    simp at hc; subst hc; decide
  | .jnum m s =>
    rw [show jsonChars (Json.jnum m s) = numChars m s from rfl] at hc
    unfold numChars at hc
    by_cases hm : m < 0
    · rw [if_pos hm, List.singleton_append] at hc
      simp at hc; subst hc; decide
    · rw [if_neg hm, List.nil_append] at hc
      obtain ⟨d, t, hu, hd⟩ := uChars_head m.natAbs s
      rw [hu] at hc
      simp at hc; subst hc
      exact isPyWs_false_of_big (by obtain ⟨h1, -⟩ := digit_toNat hd; omega)

theorem jsonChars_last_py (j : Json) :
    ∀ c, (jsonChars j).getLast? = some c → isPyWs c = false := by
  intro c hc
  match j with
  | .jnull =>
    rw [show jsonChars Json.jnull = ['n', 'u', 'l', 'l'] from rfl] at hc
    simp at hc; subst hc; decide
  | .jbool true =>
    rw [show jsonChars (Json.jbool true) = ['t', 'r', 'u', 'e'] from rfl] at hc
    simp at hc; subst hc; decide
  | .jbool false =>
    rw [show jsonChars (Json.jbool false) = ['f', 'a', 'l', 's', 'e'] from rfl] at hc
    simp at hc; subst hc; decide
  | .jstr s =>
    rw [show jsonChars (Json.jstr s) = (qcC :: escChars s.data) ++ [qcC] from rfl] at hc
    rw [List.getLast?_concat] at hc
    simp at hc; subst hc; decide
  | .jarr l =>
    rw [show jsonChars (Json.jarr l) = (lbC :: elemsChars l) ++ [rbC] from rfl] at hc
    rw [List.getLast?_concat] at hc
    simp at hc; subst hc; decide
  | .jobj f =>
    rw [show jsonChars (Json.jobj f) = (lcC :: fieldsChars f) ++ [rcC] from rfl] at hc
    rw [List.getLast?_concat] at hc
    simp at hc; subst hc; decide
  | .jnum m s =>
    rw [show jsonChars (Json.jnum m s) = numChars m s from rfl] at hc
    unfold numChars at hc
    have hu : ∀ d, (uChars m.natAbs s).getLast? = some d → isPyWs d = false := by
      intro d hd
      have := uChars_last m.natAbs s d hd
      exact isPyWs_false_of_big (by obtain ⟨h1, -⟩ := digit_toNat this; omega)
    by_cases hm : m < 0
    · rw [if_pos hm] at hc
      obtain ⟨d, t, hud, -⟩ := uChars_head m.natAbs s
      rw [hud, List.getLast?_append_cons] at hc
      exact hu c (by rw [hud]; exact hc)
    · rw [if_neg hm, List.nil_append] at hc
      exact hu c hc

theorem pyStrip_jsonChars (j : Json) : pyStrip (jsonChars j) = jsonChars j :=
  pyStrip_id (jsonChars_head_py j) (jsonChars_last_py j)

/-! ### The Result Extractor (`grade_student`, lines 259-287)

The model reply is stripped, optionally unwrapped from a ```json or generic
``` fence exactly as the Python code does with `str.split`, stripped again and
passed to `json.loads`; a `JSONDecodeError` produces the fallback verdict. -/

/-- Tail of the separator `"```json"` after its first character. -/
def fjRest : List Char := [btC, btC, 'j', 's', 'o', 'n']

/-- Tail of the separator `"```"` after its first character. -/
def fRest : List Char := [btC, btC]

/-- Lines 261-270 of `grade_student`: strip, unwrap a fenced block, strip. -/
def extract_text (reply : String) : List Char :=
  let t := pyStrip reply.data
  let parts := pySplit btC fjRest t
  let t2 :=
    if 2 ≤ parts.length then
      (pySplit btC fRest (parts.getD 1 [])).headD []
    else
      let parts2 := pySplit btC fRest t
      if 2 ≤ parts2.length then
        (pySplit btC fRest (parts2.getD 1 [])).headD []
      else t
  pyStrip t2

/-- Lines 278-284 of `grade_student`: the deterministic fallback verdict
returned when the reply cannot be parsed as JSON. -/
def fallback_verdict (q1max q2max totalmax : Nat) : Json :=
  .jobj (.fcons "Q1"
    (.jobj (.fcons "feedback" (.jstr "Grading error - manual review needed")
      (.fcons "correct_parts" (.jarr .nil)
        (.fcons "points_earned" (.jnum 0 0)
          (.fcons "max_points" (.jnum (q1max : Int) 0) .fnil)))))
    (.fcons "Q2"
      (.jobj (.fcons "feedback" (.jstr "Grading error - manual review needed")
        (.fcons "correct_parts" (.jarr .nil)
          (.fcons "points_earned" (.jnum 0 0)
            (.fcons "max_points" (.jnum (q2max : Int) 0) .fnil)))))
      (.fcons "total_points" (.jnum 0 0)
        (.fcons "max_total" (.jnum (totalmax : Int) 0)
          (.fcons "overall_comment"
            (.jstr "This submission needs manual review due to a grading error.") .fnil)))))

/-- Lines 259-284 of `grade_student`: parse the reply, falling back on a
decode error.  No invariant validation happens on the parsed value. -/
def grade_extract (q1max q2max totalmax : Nat) (replyText : String) : Json :=
  match jloads (extract_text replyText) with
  | some r => r
  | none => fallback_verdict q1max q2max totalmax

theorem pySplit_no_sep (s0 : Char) (sr a : List Char) (ha : ∀ x ∈ a, x ≠ s0) :
    pySplit s0 sr a = [a] := by
  have h := pySplit_append s0 sr a [] ha
  rw [List.append_nil] at h
  rw [h]
  rw [show pySplit s0 sr [] = [[]] from by simp [pySplit, pySplitGo]]
  simp

theorem extract_text_unwrapped (cs : List Char) (hbt : ∀ c ∈ cs, c ≠ btC)
    (h1 : ∀ c, cs.head? = some c → isPyWs c = false)
    (h2 : ∀ c, cs.getLast? = some c → isPyWs c = false) :
    extract_text (String.mk cs) = cs := by
  unfold extract_text
  simp only [show (String.mk cs).data = cs from rfl]
  rw [pyStrip_id h1 h2]
  rw [pySplit_no_sep btC fjRest cs hbt, pySplit_no_sep btC fRest cs hbt]
  simp only [List.length_singleton]
  rw [if_neg (by omega), if_neg (by omega)]
  exact pyStrip_id h1 h2

theorem extract_text_jsonfence (cs : List Char) (hbt : ∀ c ∈ cs, c ≠ btC)
    (h1 : ∀ c, cs.head? = some c → isPyWs c = false)
    (h2 : ∀ c, cs.getLast? = some c → isPyWs c = false) :
    extract_text (String.mk ([btC, btC, btC, 'j', 's', 'o', 'n', nlC] ++ cs ++
      [nlC, btC, btC, btC])) = cs := by
  unfold extract_text
  simp only [show ∀ x : List Char, (String.mk x).data = x from fun _ => rfl]
  have hstrip : pyStrip ([btC, btC, btC, 'j', 's', 'o', 'n', nlC] ++ cs ++
      [nlC, btC, btC, btC]) = [btC, btC, btC, 'j', 's', 'o', 'n', nlC] ++ cs ++
      [nlC, btC, btC, btC] := by
    apply pyStrip_id
    · intro c hc
      simp at hc
      subst hc
      decide
    · intro c hc
      rw [show [btC, btC, btC, 'j', 's', 'o', 'n', nlC] ++ cs ++ [nlC, btC, btC, btC] =
        ([btC, btC, btC, 'j', 's', 'o', 'n', nlC] ++ cs ++ [nlC, btC, btC]) ++ [btC] from
          by simp] at hc
      rw [List.getLast?_concat] at hc
      simp at hc
      subst hc
      decide
  rw [hstrip]
  have ha : ∀ x ∈ nlC :: (cs ++ [nlC]), x ≠ btC := by
    intro x hx
    rcases List.mem_cons.mp hx with rfl | hx
    · decide
    · rcases List.mem_append.mp hx with hx | hx
      · exact hbt x hx
      · simp at hx; subst hx; decide
  have hsplit1 : pySplit btC fjRest ([btC, btC, btC, 'j', 's', 'o', 'n', nlC] ++ cs ++
      [nlC, btC, btC, btC]) = [[], (nlC :: (cs ++ [nlC])) ++ [btC, btC, btC]] := by
    rw [show [btC, btC, btC, 'j', 's', 'o', 'n', nlC] ++ cs ++ [nlC, btC, btC, btC] =
      btC :: (fjRest ++ ((nlC :: (cs ++ [nlC])) ++ [btC, btC, btC])) from by
        simp [fjRest]]
    rw [pySplit_cons]
    rw [if_pos (by
      rw [List.isPrefixOf_iff_prefix]
      exact ⟨(nlC :: (cs ++ [nlC])) ++ [btC, btC, btC], by simp⟩)]
    rw [List.drop_left]
    rw [pySplit_append btC fjRest (nlC :: (cs ++ [nlC])) [btC, btC, btC] ha]
    rw [show pySplit btC fjRest [btC, btC, btC] = [[btC, btC, btC]] from by decide]
    rfl
  rw [hsplit1]
  rw [if_pos (by simp)]
  rw [show ([[], (nlC :: (cs ++ [nlC])) ++ [btC, btC, btC]] : List (List Char)).getD 1 [] =
    (nlC :: (cs ++ [nlC])) ++ [btC, btC, btC] from rfl]
  rw [pySplit_append btC fRest (nlC :: (cs ++ [nlC])) [btC, btC, btC] ha]
  rw [show pySplit btC fRest [btC, btC, btC] = [[], []] from by decide]
  rw [show (((nlC :: (cs ++ [nlC])) ++ ([[], []] : List (List Char)).headD []) ::
    ([[], []] : List (List Char)).tail).headD [] = (nlC :: (cs ++ [nlC])) ++ [] from rfl]
  rw [List.append_nil]
  exact pyStrip_nl_wrap h1 h2

theorem extract_text_plainfence (cs : List Char) (hbt : ∀ c ∈ cs, c ≠ btC)
    (h1 : ∀ c, cs.head? = some c → isPyWs c = false)
    (h2 : ∀ c, cs.getLast? = some c → isPyWs c = false) :
    extract_text (String.mk ([btC, btC, btC, nlC] ++ cs ++ [nlC, btC, btC, btC])) = cs := by
  unfold extract_text
  simp only [show ∀ x : List Char, (String.mk x).data = x from fun _ => rfl]
  have hstrip : pyStrip ([btC, btC, btC, nlC] ++ cs ++ [nlC, btC, btC, btC]) =
      [btC, btC, btC, nlC] ++ cs ++ [nlC, btC, btC, btC] := by
    apply pyStrip_id
    · intro c hc
      simp at hc
      subst hc
      decide
    · intro c hc
      rw [show [btC, btC, btC, nlC] ++ cs ++ [nlC, btC, btC, btC] =
        ([btC, btC, btC, nlC] ++ cs ++ [nlC, btC, btC]) ++ [btC] from by simp] at hc
      rw [List.getLast?_concat] at hc
      simp at hc
      subst hc
      decide
  rw [hstrip]
  have ha : ∀ x ∈ nlC :: (cs ++ [nlC]), x ≠ btC := by
    intro x hx
    rcases List.mem_cons.mp hx with rfl | hx
    · decide
    · rcases List.mem_append.mp hx with hx | hx
      · exact hbt x hx
      · simp at hx; subst hx; decide
  have hwhole : [btC, btC, btC, nlC] ++ cs ++ [nlC, btC, btC, btC] =
      btC :: btC :: btC :: ((nlC :: (cs ++ [nlC])) ++ [btC, btC, btC]) := by simp
  have hX : (nlC :: (cs ++ [nlC])) ++ [btC, btC, btC] =
      nlC :: ((cs ++ [nlC]) ++ [btC, btC, btC]) := by simp
  have e0 : pySplit btC fjRest ((nlC :: (cs ++ [nlC])) ++ [btC, btC, btC]) =
      [(nlC :: (cs ++ [nlC])) ++ [btC, btC, btC]] := by
    rw [pySplit_append btC fjRest _ _ ha,
      show pySplit btC fjRest [btC, btC, btC] = [[btC, btC, btC]] from by decide]
    rfl
  have e1 : pySplit btC fjRest (btC :: ((nlC :: (cs ++ [nlC])) ++ [btC, btC, btC])) =
      [btC :: ((nlC :: (cs ++ [nlC])) ++ [btC, btC, btC])] := by
    rw [pySplit_cons]
    have hpf : (btC :: fjRest).isPrefixOf
        (btC :: ((nlC :: (cs ++ [nlC])) ++ [btC, btC, btC])) = false := by
      rw [hX]
      simp [fjRest, List.isPrefixOf, show ((btC : Char) == nlC) = false from by decide]
    simp only [hpf, Bool.false_eq_true, if_false]
    rw [e0]
  have e2 : pySplit btC fjRest (btC :: btC :: ((nlC :: (cs ++ [nlC])) ++ [btC, btC, btC])) =
      [btC :: btC :: ((nlC :: (cs ++ [nlC])) ++ [btC, btC, btC])] := by
    rw [pySplit_cons]
    have hpf : (btC :: fjRest).isPrefixOf
        (btC :: btC :: ((nlC :: (cs ++ [nlC])) ++ [btC, btC, btC])) = false := by
      rw [hX]
      simp [fjRest, List.isPrefixOf, show ((btC : Char) == nlC) = false from by decide]
    simp only [hpf, Bool.false_eq_true, if_false]
    rw [e1]
  have e3 : pySplit btC fjRest
      (btC :: btC :: btC :: ((nlC :: (cs ++ [nlC])) ++ [btC, btC, btC])) =
      [btC :: btC :: btC :: ((nlC :: (cs ++ [nlC])) ++ [btC, btC, btC])] := by
    rw [pySplit_cons]
    have hpf : (btC :: fjRest).isPrefixOf
        (btC :: btC :: btC :: ((nlC :: (cs ++ [nlC])) ++ [btC, btC, btC])) = false := by
      rw [hX]
      simp [fjRest, List.isPrefixOf, show (('j' : Char) == nlC) = false from by decide]
    simp only [hpf, Bool.false_eq_true, if_false]
    rw [e2]
  rw [hwhole, e3]
  rw [if_neg (by simp)]
  have e4 : pySplit btC fRest
      (btC :: btC :: btC :: ((nlC :: (cs ++ [nlC])) ++ [btC, btC, btC])) =
      [[], nlC :: (cs ++ [nlC]), []] := by
    rw [pySplit_cons]
    rw [if_pos (by
      rw [List.isPrefixOf_iff_prefix]
      exact ⟨(nlC :: (cs ++ [nlC])) ++ [btC, btC, btC], by simp [fRest]⟩)]
    rw [show (btC :: btC :: ((nlC :: (cs ++ [nlC])) ++ [btC, btC, btC])).drop fRest.length =
      (nlC :: (cs ++ [nlC])) ++ [btC, btC, btC] from rfl]
    rw [pySplit_append btC fRest _ _ ha,
      show pySplit btC fRest [btC, btC, btC] = [[], []] from by decide]
    simp
  rw [e4]
  rw [if_pos (by simp)]
  rw [show ([[], nlC :: (cs ++ [nlC]), []] : List (List Char)).getD 1 [] =
    nlC :: (cs ++ [nlC]) from rfl]
  rw [pySplit_no_sep btC fRest _ ha]
  rw [show ([nlC :: (cs ++ [nlC])] : List (List Char)).headD [] = nlC :: (cs ++ [nlC]) from rfl]
  exact pyStrip_nl_wrap h1 h2

theorem grade_extract_unwrapped (q1max q2max totalmax : Nat) (j : Json)
    (hbt : ∀ c ∈ jsonChars j, c ≠ btC) :
    grade_extract q1max q2max totalmax (String.mk (jsonChars j)) = j := by
  unfold grade_extract
  rw [extract_text_unwrapped (jsonChars j) hbt (jsonChars_head_py j) (jsonChars_last_py j)]
  rw [jloads_jsonChars j]

theorem grade_extract_jsonfence (q1max q2max totalmax : Nat) (j : Json)
    (hbt : ∀ c ∈ jsonChars j, c ≠ btC) :
    grade_extract q1max q2max totalmax (String.mk ([btC, btC, btC, 'j', 's', 'o', 'n', nlC] ++
      jsonChars j ++ [nlC, btC, btC, btC])) = j := by
  unfold grade_extract
  rw [extract_text_jsonfence (jsonChars j) hbt (jsonChars_head_py j) (jsonChars_last_py j)]
  rw [jloads_jsonChars j]

theorem grade_extract_plainfence (q1max q2max totalmax : Nat) (j : Json)
    (hbt : ∀ c ∈ jsonChars j, c ≠ btC) :
    grade_extract q1max q2max totalmax (String.mk ([btC, btC, btC, nlC] ++
      jsonChars j ++ [nlC, btC, btC, btC])) = j := by
  unfold grade_extract
  rw [extract_text_plainfence (jsonChars j) hbt (jsonChars_head_py j) (jsonChars_last_py j)]
  rw [jloads_jsonChars j]

/-! ### Configuration and Rubric Registry (lines 17-90) -/

def SECTIONS_TO_GRADE : List String := ["WNL8", "WNL10"]

/-- Point allocation of one question: declared total and named sub-parts. -/
structure QAlloc where
  total : Nat
  parts : List (String × Nat)
deriving DecidableEq

/-- The `POINTS` table (lines 22-31). -/
def POINTS : List (String × List (String × QAlloc)) :=
  [("WNL8", [("Q1", ⟨3, [("full", 3)]⟩), ("Q2", ⟨3, [("a", 2), ("b", 1)]⟩)]),
   ("WNL10", [("Q1", ⟨3, [("a", 2), ("b", 1)]⟩), ("Q2", ⟨3, [("full", 3)]⟩)])]

def wnl8Q1 : String := "
Question 1 (3 points) - drawTriangle Function:

Write a Python function drawTriangle(n) that takes an integer n and prints
a triangle pattern of stars. For example, if n=5:
*****
****
***
**
*

The function only prints the pattern (no return value).
Assume n is always a positive integer.
"

def wnl8Q2 : String := "
Question 2 (3 points) - commonElements Function:

Part a) Write a Python function commonElements(list1, list2) that takes two lists
and returns a new list containing the distinct elements that appear in both
lists. If there are no common elements, the function should return an empty list.

Part b) Write a Python script that prompts the user to enter two lists of numbers
(elements separated by spaces). The script should use the commonElements function
to get the list of common elements and then print the result. If the returned
list is empty, print an appropriate message instead.
"

def wnl10Q1 : String := "
Question 1 (3 points) - Count_digits Function:

Part a) Write a Python function named Count_digits that takes a string as input and
returns the number of digits in the string.
- The function must NOT read input from the user
- The function must NOT print anything
- The function must return an integer (the count of digits)

Part b) Write a script that asks the user to enter a sentence, calls Count_digits,
and prints the number of digits in the sentence.
"

def wnl10Q2 : String := "
Question 2 (3 points) - Score Dictionary:

Write a Python program that builds a score dictionary for a competition:
1. Prompt the user to enter a list of participant names, separated by commas
2. Prompt the user to enter a list of scores (comma-separated) for each participant
3. Store the names and scores in a dictionary where each name is a key and the corresponding score is the value
4. Print the resulting dictionary
5. Determine the participant with the highest score and print their name and score
"

/-- The `EXAM_QUESTIONS` table (lines 37-90). -/
def EXAM_QUESTIONS : List (String × (String × String)) :=
  [("WNL8", (wnl8Q1, wnl8Q2)), ("WNL10", (wnl10Q1, wnl10Q2))]

/-! ### The Prompt Compiler (`GRADING_PROMPT_TEMPLATE`, lines 96-178, and the
`.format` call in `grade_student`, lines 230-246).  The template is split at
its placeholders; `buildPrompt` concatenates the pieces exactly as `.format`
does (with the escaped Python double braces rendered as single braces). -/

/-- The 80-character divider line of the template. -/
def eqDivider : String := String.mk (List.replicate 80 (Char.ofNat 61))

def tplA : String := "
You are a gentle and encouraging programming instructor grading a CSCI 101 introductory Python exam.

## GRADING PHILOSOPHY - VERY LENIENT GRADING
- Give FULL CREDIT (3/3) if the code logic is correct, even if:
  - The code is not wrapped in a function (logic matters more than structure)
  - There are minor syntax errors
  - Variable names are different
  - Extra features were added (like input validation)
- Give ALMOST FULL CREDIT (2.5/3 or 2/3) if:
  - The core concept is understood but implementation has issues
  - Most of the solution is correct with minor mistakes
- Give PARTIAL CREDIT (1-2/3) if:
  - Student shows understanding of the problem
  - Some correct concepts are present
- Only give ZERO if the answer is completely empty or totally unrelated

IMPORTANT: This is an introductory course. Be generous! If the student's code would produce the correct output, give full marks.

## EXAM SECTION: "

def tplB : String := "

## POINT DISTRIBUTION:
"

def tplC : String := "

" ++ eqDivider ++ "
## THE EXAM QUESTIONS:
" ++ eqDivider ++ "

### QUESTION 1:
"

def tplD : String := "

### QUESTION 2:
"

def tplE1 : String := "

" ++ eqDivider ++ "
## ALL OF THE STUDENT'S SUBMITTED CODE:
" ++ eqDivider ++ "
"

/-- The cross-box lenient-inference instruction of the template
(lines 133-135): the model must infer which box answers which question. -/
def lenientInstr : String := "The student submitted code in three text boxes. Look at ALL of this code to find
answers for both questions. The code may not be in the expected order - analyze
the logic to determine which code attempts to answer which question.
"

def tplE2 : String := "
### Code Box 1:
```python
"

def tplF : String := "
```

### Code Box 2:
```python
"

def tplG : String := "
```

### Code Box 3:
```python
"

def tplH : String := "
```

" ++ eqDivider ++ "
## YOUR TASK:
" ++ eqDivider ++ "
1. Read ALL the code boxes above
2. Determine which code is attempting to answer Question 1
3. Determine which code is attempting to answer Question 2
4. Grade each question LENIENTLY - if the logic works, give full credit!

## RESPONSE FORMAT (respond ONLY with valid JSON, no other text):
\x7b
    \"Q1\": \x7b
        \"feedback\": \"Feedback about Question 1 - focus on what they did RIGHT\",
        \"correct_parts\": [\"list\", \"of\", \"correct\", \"concepts\"],
        \"points_earned\": <number between 0 and "

def tplI : String := ">,
        \"max_points\": "

def tplJ : String := "
    \x7d,
    \"Q2\": \x7b
        \"feedback\": \"Feedback about Question 2 - focus on what they did RIGHT\",
        \"correct_parts\": [\"list\", \"of\", \"correct\", \"concepts\"],
        \"points_earned\": <number between 0 and "

def tplK : String := ">,
        \"max_points\": "

def tplL : String := "
    \x7d,
    \"total_points\": <sum of points_earned>,
    \"max_total\": "

def tplM : String := ",
    \"overall_comment\": \"One encouraging sentence about their work\"
\x7d
"

/-- `point_info` (lines 230-233). -/
def point_info (sec : String) : String :=
  if sec = "WNL8" then
    "Q1: 3 points (graded as whole)\nQ2: 3 points (part a: 2 points, part b: 1 point)"
  else
    "Q1: 3 points (part a: 2 points, part b: 1 point)\nQ2: 3 points (graded as whole)"

/-- `q1_a or "(No answer provided)"` (lines 240-242). -/
def orDefault (s : String) : String := if s = "" then "(No answer provided)" else s

/-- `str(n)` for the integer placeholders of `.format`. -/
def natStr (n : Nat) : String := String.mk (natDigits n)

/-- `GRADING_PROMPT_TEMPLATE.format(...)` (lines 235-246). -/
def buildPrompt (sec q1text q2text q1a q1b q2a : String) (q1max q2max totalmax : Nat) : String :=
  tplA ++ sec ++ tplB ++ point_info sec ++ tplC ++ q1text ++ tplD ++ q2text ++
    tplE1 ++ lenientInstr ++ tplE2 ++ orDefault q1a ++ tplF ++ orDefault q1b ++
    tplG ++ orDefault q2a ++ tplH ++ natStr q1max ++ tplI ++ natStr q1max ++
    tplJ ++ natStr q2max ++ tplK ++ natStr q2max ++ tplL ++ natStr totalmax ++ tplM

/-! ### Completion Client and per-student grading (lines 185-287) -/

/-- Outcome of one HTTP completion call, as decided by the remote endpoint
(the part of the system that is external nondeterminism): a 200 reply whose
message content is `content`, a non-200 status, or a transport failure. -/
inductive ApiResult where
  | ok (content : String)
  | httpError (status : Nat) (body : String)
  | netError (msg : String)

/-- `call_inference_api` (lines 197-216): non-200 raises
`Exception(f"API Error {status}: {body}")`, network errors propagate. -/
def call_inference_api (oracle : String → String → ApiResult) (api_key : String)
    (promptMsg : String) : Except String String :=
  match oracle api_key promptMsg with
  | .ok content => .ok content
  | .httpError st body => .error ("API Error " ++ natStr st ++ ": " ++ body)
  | .netError msg => .error msg

/-- `get_api_key` (lines 189-194): `os.environ.get` plus the falsy check
(`None` and the empty string both fail). -/
def get_api_key (env : List (String × String)) : Except String String :=
  match env.lookup "MODEL_ACCESS_KEY" with
  | some k =>
    if k = "" then .error "MODEL_ACCESS_KEY environment variable not set" else .ok k
  | none => .error "MODEL_ACCESS_KEY environment variable not set"

/-- The prompt `grade_student` sends for a section and three answer boxes
(empty for an unregistered section, where the real code raises first). -/
def promptFor (sec q1a q1b q2a : String) : String :=
  match EXAM_QUESTIONS.lookup sec, POINTS.lookup sec with
  | some qs, some pts =>
    match (pts.lookup "Q1").map QAlloc.total, (pts.lookup "Q2").map QAlloc.total with
    | some q1max, some q2max =>
      buildPrompt sec qs.1 qs.2 q1a q1b q2a q1max q2max (q1max + q2max)
    | _, _ => ""
  | _, _ => ""

/-- `grade_student` (lines 219-287): look up the section (a `KeyError` for an
unknown one, line 222), build the prompt, call the endpoint, extract the
verdict with the fallback on JSON decode errors; API errors re-raise. -/
def grade_student (api_key sec q1a q1b q2a : String)
    (oracle : String → String → ApiResult) : Except String Json :=
  match EXAM_QUESTIONS.lookup sec, POINTS.lookup sec with
  | some _, some pts =>
    match (pts.lookup "Q1").map QAlloc.total, (pts.lookup "Q2").map QAlloc.total with
    | some q1max, some q2max =>
      match call_inference_api oracle api_key (promptFor sec q1a q1b q2a) with
      | .ok content => .ok (grade_extract q1max q2max (q1max + q2max) content)
      | .error e => .error e
    | _, _ => .error ("KeyError: " ++ sec)
  | _, _ => .error ("KeyError: " ++ sec)

/-! ### Batch Orchestrator (`process_all_students`, lines 318-394) -/

/-- One input-spreadsheet row plus the behavior of the remote endpoint for it. -/
structure SubmissionRow where
  Name : String
  ID : String
  Email_Address : String
  Section_Code : String
  Q1_a : Option String
  Q1_b : Option String
  Q2_a : Option String
  oracle : String → String → ApiResult

/-- One output row (the `result` dict, lines 344-364 / 370-390).  Fields that
the code copies verbatim from the parsed reply stay `Json`-typed. -/
structure ReportRow where
  Name : String
  ID : String
  Email : String
  Section : String
  Q1_Code_a : String
  Q1_Code_b : String
  Q2_Code : String
  Q1_Feedback : Json
  Q1_Correct_Parts : String
  Q1_Points : Json
  Q1_Max : Json
  Q2_Feedback : Json
  Q2_Correct_Parts : String
  Q2_Points : Json
  Q2_Max : Json
  Total_Points : Json
  Max_Points : Json
  Percentage : ℚ
  Overall_Comment : Json
deriving DecidableEq

/-- `q1_a[:500] if q1_a else ""` (lines 349-351). -/
def pyTrunc (s : String) : String := if s = "" then "" else String.mk (s.data.take 500)

/-- Python dict lookup on a parsed JSON object: `KeyError` when the key is
missing, `TypeError` when the value is not a dict; a duplicate JSON key keeps
the last occurrence, as `json.loads` does. -/
def jfieldsGet : JsonFields → String → Option Json
  | .fnil, _ => none
  | .fcons k v tl, key =>
    match jfieldsGet tl key with
    | some r => some r
    | none => if k = key then some v else none

def jget (j : Json) (key : String) : Except String Json :=
  match j with
  | .jobj fs =>
    match jfieldsGet fs key with
    | some v => .ok v
    | none => .error ("KeyError: " ++ key)
  | _ => .error "TypeError: value is not a dict"

def strList : JsonList → Option (List String)
  | .nil => some []
  | .cons (.jstr s) tl => (strList tl).map (s :: ·)
  | .cons _ _ => none

/-- `", ".join(x)`: joins a list of strings; a string joins its characters;
anything else is a `TypeError`. -/
def pyJoin (j : Json) : Except String String :=
  match j with
  | .jarr l =>
    match strList l with
    | some ss => .ok (String.intercalate ", " ss)
    | none => .error "TypeError: sequence item: expected str instance"
  | .jstr s => .ok (String.intercalate ", " (s.data.map (fun c => String.mk [c])))
  | _ => .error "TypeError: can only join an iterable of strings"

/-- Numeric value of a parsed JSON number, for `/`, `*` and `round`;
non-numbers raise `TypeError`. -/
def jnumQ (j : Json) : Except String ℚ :=
  match j with
  | .jnum m s => .ok ((m : ℚ) / (10 : ℚ) ^ s)
  | _ => .error "TypeError: unsupported operand type"

/-- Python `round` ties to even (half-even rounding). -/
def roundHalfEven (q : ℚ) : Int :=
  let f := ⌊q⌋
  let r := q - f
  if r < 1 / 2 then f else if 1 / 2 < r then f + 1 else if Even f then f else f + 1

/-- `round(x, 1)`. -/
def pyRound1 (q : ℚ) : ℚ := (roundHalfEven (q * 10) : ℚ) / 10

/-- The reply-derived values of a report row, in the evaluation order of the
dict literal at lines 344-364; any lookup/type failure or a zero `max_total`
raises out of the row construction. -/
structure GradedFields where
  q1fb : Json
  q1cp : String
  q1pts : Json
  q1max : Json
  q2fb : Json
  q2cp : String
  q2pts : Json
  q2max : Json
  tot : Json
  maxtot : Json
  pct : ℚ
  overall : Json

def validateFields (g : Json) : Except String GradedFields := do
  let gq1 ← jget g "Q1"
  let q1fb ← jget gq1 "feedback"
  let q1cpv ← jget gq1 "correct_parts"
  let q1cp ← pyJoin q1cpv
  let q1pts ← jget gq1 "points_earned"
  let q1max ← jget gq1 "max_points"
  let gq2 ← jget g "Q2"
  let q2fb ← jget gq2 "feedback"
  let q2cpv ← jget gq2 "correct_parts"
  let q2cp ← pyJoin q2cpv
  let q2pts ← jget gq2 "points_earned"
  let q2max ← jget gq2 "max_points"
  let tot ← jget g "total_points"
  let maxtot ← jget g "max_total"
  let tv ← jnumQ tot
  let mv ← jnumQ maxtot
  if mv = 0 then
    throw "ZeroDivisionError: division by zero"
  else
    let overall ← jget g "overall_comment"
    pure ⟨q1fb, q1cp, q1pts, q1max, q2fb, q2cp, q2pts, q2max, tot, maxtot,
      pyRound1 (tv / mv * 100), overall⟩

def mkRow (name id email sec q1a q1b q2a : String) (f : GradedFields) : ReportRow :=
  { Name := name, ID := id, Email := email, Section := sec,
    Q1_Code_a := pyTrunc q1a, Q1_Code_b := pyTrunc q1b, Q2_Code := pyTrunc q2a,
    Q1_Feedback := f.q1fb, Q1_Correct_Parts := f.q1cp,
    Q1_Points := f.q1pts, Q1_Max := f.q1max,
    Q2_Feedback := f.q2fb, Q2_Correct_Parts := f.q2cp,
    Q2_Points := f.q2pts, Q2_Max := f.q2max,
    Total_Points := f.tot, Max_Points := f.maxtot,
    Percentage := f.pct, Overall_Comment := f.overall }

/-- The success-path row construction (lines 344-364). -/
def buildRow (r : SubmissionRow) (q1a q1b q2a : String) (g : Json) :
    Except String ReportRow :=
  (validateFields g).map (mkRow r.Name r.ID r.Email_Address r.Section_Code q1a q1b q2a)

/-- The error-path row (lines 370-390). -/
def errorRow (r : SubmissionRow) (q1a q1b q2a e : String) (q1t q2t : Nat) : ReportRow :=
  { Name := r.Name, ID := r.ID, Email := r.Email_Address, Section := r.Section_Code,
    Q1_Code_a := pyTrunc q1a, Q1_Code_b := pyTrunc q1b, Q2_Code := pyTrunc q2a,
    Q1_Feedback := .jstr ("ERROR: " ++ e), Q1_Correct_Parts := "",
    Q1_Points := .jnum 0 0, Q1_Max := .jnum (q1t : Int) 0,
    Q2_Feedback := .jstr ("ERROR: " ++ e), Q2_Correct_Parts := "",
    Q2_Points := .jnum 0 0, Q2_Max := .jnum (q2t : Int) 0,
    Total_Points := .jnum 0 0, Max_Points := .jnum 6 0, Percentage := 0,
    Overall_Comment := .jstr "Error during grading - needs manual review" }

/-- `POINTS[section]["Q1"]["total"]` / `..."Q2"...` as evaluated inside the
`except` handler (lines 381, 385): a `KeyError` here propagates. -/
def handlerPoints (sec : String) : Option (Nat × Nat) := do
  let pts ← POINTS.lookup sec
  let a ← pts.lookup "Q1"
  let b ← pts.lookup "Q2"
  pure (a.total, b.total)

/-- One iteration of the grading loop (lines 328-392): grade, build the row,
and on any exception build the error row — whose own `POINTS[section]` lookup
re-raises for an unregistered section, aborting the run. -/
def processRow (api_key : String) (r : SubmissionRow) : Except String ReportRow :=
  let q1a := r.Q1_a.getD ""
  let q1b := r.Q1_b.getD ""
  let q2a := r.Q2_a.getD ""
  match (grade_student api_key r.Section_Code q1a q1b q2a r.oracle).bind
      (buildRow r q1a q1b q2a) with
  | .ok row => .ok row
  | .error e =>
    match handlerPoints r.Section_Code with
    | some (a, b) => .ok (errorRow r q1a q1b q2a e a b)
    | none => .error ("KeyError: " ++ r.Section_Code)

/-- The total per-row function for registered sections (what one loop
iteration appends when it does not abort). -/
def processRowTotal (api_key : String) (r : SubmissionRow) : ReportRow :=
  let q1a := r.Q1_a.getD ""
  let q1b := r.Q1_b.getD ""
  let q2a := r.Q2_a.getD ""
  match (grade_student api_key r.Section_Code q1a q1b q2a r.oracle).bind
      (buildRow r q1a q1b q2a) with
  | .ok row => row
  | .error e =>
    match handlerPoints r.Section_Code with
    | some (a, b) => errorRow r q1a q1b q2a e a b
    | none => errorRow r q1a q1b q2a e 0 0

/-- The `for` loop of `process_all_students`: an uncaught exception aborts the
whole run (all accumulated rows are lost), otherwise rows accumulate in input
order. -/
def processRows (api_key : String) : List SubmissionRow → Except String (List ReportRow)
  | [] => .ok []
  | r :: rs =>
    match processRow api_key r with
    | .ok row => (processRows api_key rs).map (row :: ·)
    | .error e => .error e

/-- `process_all_students` (lines 318-394): read the credential once, then
grade every row. -/
def process_all_students (env : List (String × String)) (rows : List SubmissionRow) :
    Except String (List ReportRow) :=
  match get_api_key env with
  | .ok key => processRows key rows
  | .error e => .error e

/-! ### Verdict-shape predicates (the §3 invariants of the spec) -/

/-- Python dict access returning `Option` (for stating properties). -/
def jgetO (j : Json) (key : String) : Option Json :=
  match j with
  | .jobj fs => jfieldsGet fs key
  | _ => none

/-- Mantissa/scale view of a JSON number (`(m, s)` denotes `m / 10^s`),
kept in integer arithmetic so the predicates below are kernel-computable. -/
def numSc (j : Json) : Option (Int × Nat) :=
  match j with
  | .jnum m s => some (m, s)
  | _ => none

def scLe (a b : Int × Nat) : Bool := decide (a.1 * 10 ^ b.2 ≤ b.1 * 10 ^ a.2)

def scEq (a b : Int × Nat) : Bool := decide (a.1 * 10 ^ b.2 = b.1 * 10 ^ a.2)

def scAdd (a b : Int × Nat) : Int × Nat := (a.1 * 10 ^ b.2 + b.1 * 10 ^ a.2, a.2 + b.2)

def scOfNat (n : Nat) : Int × Nat := ((n : Int), 0)

def isStr : Json → Bool
  | .jstr _ => true
  | _ => false

def isStrArr : Json → Bool
  | .jarr l => (strList l).isSome
  | _ => false

/-- One question block of a verdict: feedback string, list of concept strings,
numeric `points_earned` within `[0, max]`, numeric `max_points` equal to the
rubric maximum. -/
def questionShape (qmax : Nat) (j : Json) : Bool :=
  (match jgetO j "feedback" with
   | some fb => isStr fb
   | none => false) &&
  (match jgetO j "correct_parts" with
   | some cp => isStrArr cp
   | none => false) &&
  (match (jgetO j "points_earned").bind numSc with
   | some p => scLe (scOfNat 0) p && scLe p (scOfNat qmax)
   | none => false) &&
  (match (jgetO j "max_points").bind numSc with
   | some mq => scEq mq (scOfNat qmax)
   | none => false)

/-- The §3 verdict schema with its invariants, relative to the rubric maxima. -/
def isVerdictShape (q1max q2max totalmax : Nat) (j : Json) : Bool :=
  (match jgetO j "Q1" with
   | some q1 => questionShape q1max q1
   | none => false) &&
  (match jgetO j "Q2" with
   | some q2 => questionShape q2max q2
   | none => false) &&
  (match (jgetO j "total_points").bind numSc,
      (jgetO j "Q1").bind (fun q => (jgetO q "points_earned").bind numSc),
      (jgetO j "Q2").bind (fun q => (jgetO q "points_earned").bind numSc) with
   | some t, some p1, some p2 => scEq t (scAdd p1 p2)
   | _, _, _ => false) &&
  (match (jgetO j "max_total").bind numSc with
   | some mt => scEq mt (scOfNat totalmax)
   | none => false) &&
  (match jgetO j "overall_comment" with
   | some oc => isStr oc
   | none => false)

/-- A parsed structure violates the §3 verdict invariants: some question's
points outside `[0, max_points]`, an inconsistent total, or a `max_total`
different from the rubric's. -/
def violatesVerdict (q1max q2max totalmax : Nat) (j : Json) : Bool :=
  (match (jgetO j "Q1").bind (fun q => (jgetO q "points_earned").bind numSc) with
   | some p => !scLe (scOfNat 0) p || !scLe p (scOfNat q1max)
   | none => false) ||
  (match (jgetO j "Q2").bind (fun q => (jgetO q "points_earned").bind numSc) with
   | some p => !scLe (scOfNat 0) p || !scLe p (scOfNat q2max)
   | none => false) ||
  (match (jgetO j "total_points").bind numSc,
      (jgetO j "Q1").bind (fun q => (jgetO q "points_earned").bind numSc),
      (jgetO j "Q2").bind (fun q => (jgetO q "points_earned").bind numSc) with
   | some t, some p1, some p2 => !scEq t (scAdd p1 p2)
   | _, _, _ => false) ||
  (match (jgetO j "max_total").bind numSc with
   | some mt => !scEq mt (scOfNat totalmax)
   | none => false)

/-! ### Claim C1 -/

/-- The reply used to refute C1: valid JSON whose `Q1.points_earned` (99) is
far outside `[0, 3]` and whose totals are inconsistent with the rubric. -/
def c1Reply : String :=
  "\x7b\"Q1\": \x7b\"feedback\": \"ok\", \"correct_parts\": [], \"points_earned\": 99, \"max_points\": 3\x7d, \"Q2\": \x7b\"feedback\": \"ok\", \"correct_parts\": [], \"points_earned\": 0, \"max_points\": 3\x7d, \"total_points\": 99, \"max_total\": 6, \"overall_comment\": \"hi\"\x7d"

/-- The value `json.loads` yields for `c1Reply`. -/
def c1Json : Json :=
  .jobj (.fcons "Q1"
    (.jobj (.fcons "feedback" (.jstr "ok")
      (.fcons "correct_parts" (.jarr .nil)
        (.fcons "points_earned" (.jnum 99 0)
          (.fcons "max_points" (.jnum 3 0) .fnil)))))
    (.fcons "Q2"
      (.jobj (.fcons "feedback" (.jstr "ok")
        (.fcons "correct_parts" (.jarr .nil)
          (.fcons "points_earned" (.jnum 0 0)
            (.fcons "max_points" (.jnum 3 0) .fnil)))))
      (.fcons "total_points" (.jnum 99 0)
        (.fcons "max_total" (.jnum 6 0)
          (.fcons "overall_comment" (.jstr "hi") .fnil)))))

/-- Claim C1, counterexample: a reply that parses but violates the §3
invariants (`points_earned` 99 on a 3-point question) is returned verbatim by
the extractor — not replaced by the fallback Verdict. -/
theorem c1_counterexample :
    grade_extract 3 3 6 c1Reply = c1Json ∧
    violatesVerdict 3 3 6 c1Json = true ∧
    c1Json ≠ fallback_verdict 3 3 6 := by
  refine ⟨by decide, by decide, by decide⟩

/-- Claim C1 (amended): the extractor performs no invariant validation at
all — any reply whose extracted text parses as JSON is returned verbatim to
the orchestrator, even when it violates the §3 verdict invariants; the
fallback is applied only to unparseable replies, and no value is clamped. -/
theorem c1_no_validation (q1max q2max totalmax : Nat) (reply : String) (j : Json)
    (hp : jloads (extract_text reply) = some j)
    (hviol : violatesVerdict q1max q2max totalmax j = true) :
    grade_extract q1max q2max totalmax reply = j := by
  unfold grade_extract
  rw [hp]

/-- Witness for the amended C1 theorem at the concrete violating reply. -/
theorem c1_witness : grade_extract 3 3 6 c1Reply = c1Json :=
  c1_no_validation 3 3 6 c1Reply c1Json (by decide) (by decide)

/-! ### Claim C2 -/

/-- `json.loads("[1, 2, 3]")`. -/
def c2Arr : Json := .jarr (.cons (.jnum 1 0) (.cons (.jnum 2 0) (.cons (.jnum 3 0) .nil)))

/-- Claim C2, counterexample: a reply that is valid JSON but *not* a verdict
(a bare array) is not given the fallback — the extractor returns the
non-verdict value as is.  The fallback is keyed to JSON decode errors only,
not to the verdict schema. -/
theorem c2_counterexample :
    grade_extract 3 3 6 "[1, 2, 3]" = c2Arr ∧
    isVerdictShape 3 3 6 c2Arr = false ∧
    c2Arr ≠ fallback_verdict 3 3 6 := by
  refine ⟨by decide, by decide, by decide⟩

/-- Claim C2 (amended): for every model reply whose extracted text does not
parse as JSON, `grade_student` returns (instead of raising) the deterministic
fallback verdict with zero points everywhere, per-question feedback
"Grading error - manual review needed", `max_points`/`max_total` taken from
the rubric for the cohort, and an overall comment flagging the failure. -/
theorem c2_fallback (api_key sec q1a q1b q2a content : String)
    (oracle : String → String → ApiResult)
    (hsec : sec = "WNL8" ∨ sec = "WNL10")
    (hok : oracle api_key (promptFor sec q1a q1b q2a) = .ok content)
    (hbad : jloads (extract_text content) = none) :
    grade_student api_key sec q1a q1b q2a oracle = .ok (fallback_verdict 3 3 6) ∧
    (jgetO (fallback_verdict 3 3 6) "Q1").bind (fun q => jgetO q "feedback") =
      some (.jstr "Grading error - manual review needed") ∧
    (jgetO (fallback_verdict 3 3 6) "Q2").bind (fun q => jgetO q "feedback") =
      some (.jstr "Grading error - manual review needed") ∧
    (jgetO (fallback_verdict 3 3 6) "Q1").bind (fun q => jgetO q "points_earned") =
      some (.jnum 0 0) ∧
    (jgetO (fallback_verdict 3 3 6) "Q2").bind (fun q => jgetO q "points_earned") =
      some (.jnum 0 0) ∧
    jgetO (fallback_verdict 3 3 6) "total_points" = some (.jnum 0 0) ∧
    ((jgetO (fallback_verdict 3 3 6) "Q1").bind (fun q => jgetO q "max_points") =
      some (.jnum ((handlerPoints sec).getD (0, 0)).1 0) ∧
     (jgetO (fallback_verdict 3 3 6) "Q2").bind (fun q => jgetO q "max_points") =
      some (.jnum ((handlerPoints sec).getD (0, 0)).2 0) ∧
     jgetO (fallback_verdict 3 3 6) "max_total" = some (.jnum
      (((handlerPoints sec).getD (0, 0)).1 + ((handlerPoints sec).getD (0, 0)).2) 0)) ∧
    jgetO (fallback_verdict 3 3 6) "overall_comment" =
      some (.jstr "This submission needs manual review due to a grading error.") := by
  have hmain : grade_student api_key sec q1a q1b q2a oracle = .ok (fallback_verdict 3 3 6) := by
    rcases hsec with rfl | rfl
    · unfold grade_student
      rw [show EXAM_QUESTIONS.lookup "WNL8" = some (wnl8Q1, wnl8Q2) from rfl]
      rw [show POINTS.lookup "WNL8" =
        some [("Q1", ⟨3, [("full", 3)]⟩), ("Q2", ⟨3, [("a", 2), ("b", 1)]⟩)] from rfl]
      simp only
      rw [show (([("Q1", (⟨3, [("full", 3)]⟩ : QAlloc)),
        ("Q2", ⟨3, [("a", 2), ("b", 1)]⟩)].lookup "Q1").map QAlloc.total) = some 3 from rfl]
      rw [show (([("Q1", (⟨3, [("full", 3)]⟩ : QAlloc)),
        ("Q2", ⟨3, [("a", 2), ("b", 1)]⟩)].lookup "Q2").map QAlloc.total) = some 3 from rfl]
      simp only
      unfold call_inference_api
      rw [hok]
      simp only [grade_extract, hbad]
    · unfold grade_student
      rw [show EXAM_QUESTIONS.lookup "WNL10" = some (wnl10Q1, wnl10Q2) from rfl]
      rw [show POINTS.lookup "WNL10" =
        some [("Q1", ⟨3, [("a", 2), ("b", 1)]⟩), ("Q2", ⟨3, [("full", 3)]⟩)] from rfl]
      simp only
      rw [show (([("Q1", (⟨3, [("a", 2), ("b", 1)]⟩ : QAlloc)),
        ("Q2", ⟨3, [("full", 3)]⟩)].lookup "Q1").map QAlloc.total) = some 3 from rfl]
      rw [show (([("Q1", (⟨3, [("a", 2), ("b", 1)]⟩ : QAlloc)),
        ("Q2", ⟨3, [("full", 3)]⟩)].lookup "Q2").map QAlloc.total) = some 3 from rfl]
      simp only
      unfold call_inference_api
      rw [hok]
      simp only [grade_extract, hbad]
  refine ⟨hmain, by decide, by decide, by decide, by decide, by decide, ?_, by decide⟩
  rcases hsec with rfl | rfl <;> exact ⟨by decide, by decide, by decide⟩

/-- Witness for the amended C2 theorem: an unparseable reply on a concrete
submission yields the fallback verdict. -/
theorem c2_witness :
    grade_student "k" "WNL8" "" "" "" (fun _ _ => ApiResult.ok "not json") =
      .ok (fallback_verdict 3 3 6) :=
  (c2_fallback "k" "WNL8" "" "" "" "not json" (fun _ _ => ApiResult.ok "not json")
    (Or.inl rfl) rfl (by decide)).1

/-! ### Claim C3 -/

/-- A submission with an unregistered cohort code. -/
def c3Row : SubmissionRow :=
  { Name := "A", ID := "1", Email_Address := "a@x", Section_Code := "XYZ",
    Q1_a := some "pass", Q1_b := none, Q2_a := none,
    oracle := fun _ _ => ApiResult.ok "x" }

/-- A registered-cohort submission whose grading hits a transport failure,
which the loop handles by emitting the zero-scored error row. -/
def c3Good : SubmissionRow :=
  { Name := "B", ID := "2", Email_Address := "b@x", Section_Code := "WNL8",
    Q1_a := some "pass", Q1_b := none, Q2_a := none,
    oracle := fun _ _ => ApiResult.httpError 500 "server down" }

/-- Claim C3, counterexample: an unknown cohort code is *not* caught
per-submission — the `except` handler itself re-raises `KeyError` from its
own `POINTS[section]` lookups, so the whole run aborts and the earlier,
successfully handled row is lost: the output is an error, not one row per
input. -/
theorem c3_counterexample :
    process_all_students [("MODEL_ACCESS_KEY", "k")] [c3Good, c3Row] =
      .error "KeyError: XYZ" := rfl

/-- `processRow` never fails on a cohort registered in `POINTS`: every
per-row exception is absorbed into the error row. -/
theorem processRow_eq_total (key : String) (r : SubmissionRow)
    (hreg : (handlerPoints r.Section_Code).isSome = true) :
    processRow key r = .ok (processRowTotal key r) := by
  simp only [processRow, processRowTotal]
  cases hg : (grade_student key r.Section_Code (r.Q1_a.getD "") (r.Q1_b.getD "")
      (r.Q2_a.getD "") r.oracle).bind
      (buildRow r (r.Q1_a.getD "") (r.Q1_b.getD "") (r.Q2_a.getD "")) with
  | ok row => rfl
  | error e =>
    cases hh : handlerPoints r.Section_Code with
    | some ab => rfl
    | none => rw [hh] at hreg; exact absurd hreg (by simp)

/-- The loop emits one row per input when every cohort code is registered. -/
theorem processRows_eq_total (key : String) :
    ∀ rows : List SubmissionRow,
    (∀ r ∈ rows, (handlerPoints r.Section_Code).isSome = true) →
    processRows key rows = .ok (rows.map (processRowTotal key))
  | [], _ => rfl
  | r :: rs, hreg => by
    have hr : processRow key r = .ok (processRowTotal key r) :=
      processRow_eq_total key r (hreg r (List.mem_cons_self r rs))
    have hrest := processRows_eq_total key rs
      (fun x hx => hreg x (List.mem_cons_of_mem r hx))
    unfold processRows
    rw [hr, hrest]
    rfl

/-- Claim C3 (amended): provided every cohort code is registered
in `POINTS`, the batch never aborts: it emits exactly one report row per
input, in input order, and a submission whose grading raises (transport
failure, unknown cohort in `EXAM_QUESTIONS`, malformed verdict fields, ...)
gets the zero-scored error row instead of stopping the run.  For a cohort
missing from `POINTS` the handler itself re-raises and the run aborts. -/
theorem c3_isolation (env : List (String × String)) (key : String)
    (rows : List SubmissionRow)
    (hkey : get_api_key env = .ok key)
    (hreg : ∀ r ∈ rows, (handlerPoints r.Section_Code).isSome = true) :
    process_all_students env rows = .ok (rows.map (processRowTotal key)) ∧
    (∀ r ∈ rows, ∀ e,
      (grade_student key r.Section_Code (r.Q1_a.getD "") (r.Q1_b.getD "")
          (r.Q2_a.getD "") r.oracle).bind
          (buildRow r (r.Q1_a.getD "") (r.Q1_b.getD "") (r.Q2_a.getD "")) = .error e →
      processRowTotal key r =
        errorRow r (r.Q1_a.getD "") (r.Q1_b.getD "") (r.Q2_a.getD "") e
          ((handlerPoints r.Section_Code).getD (0, 0)).1
          ((handlerPoints r.Section_Code).getD (0, 0)).2) := by
  constructor
  · simp only [process_all_students, hkey]
    exact processRows_eq_total key rows hreg
  · intro r hr e herr
    have hregr := hreg r hr
    simp only [processRowTotal]
    rw [herr]
    cases hh : handlerPoints r.Section_Code with
    | some ab => rfl
    | none => rw [hh] at hregr; exact absurd hregr (by simp)

/-- Witness for the amended C3 theorem: a registered-cohort batch yields one
row per input. -/
theorem c3_witness :
    process_all_students [("MODEL_ACCESS_KEY", "k")] [c3Good] =
      .ok ([c3Good].map (processRowTotal "k")) :=
  (c3_isolation [("MODEL_ACCESS_KEY", "k")] "k" [c3Good] rfl
    (by intro r hr; rw [List.mem_singleton] at hr; subst hr; rfl)).1

/-! ### Claim C4 -/

/-- A well-formed verdict (satisfying every §3 invariant) whose Q1 feedback
happens to mention a triple-backtick fence. -/
def c4Bad : Json :=
  .jobj (.fcons "Q1"
    (.jobj (.fcons "feedback" (.jstr "use ``` fences")
      (.fcons "correct_parts" (.jarr .nil)
        (.fcons "points_earned" (.jnum 0 0)
          (.fcons "max_points" (.jnum 3 0) .fnil)))))
    (.fcons "Q2"
      (.jobj (.fcons "feedback" (.jstr "ok")
        (.fcons "correct_parts" (.jarr .nil)
          (.fcons "points_earned" (.jnum 0 0)
            (.fcons "max_points" (.jnum 3 0) .fnil)))))
      (.fcons "total_points" (.jnum 0 0)
        (.fcons "max_total" (.jnum 6 0)
          (.fcons "overall_comment" (.jstr "hi") .fnil)))))

/-- Claim C4, counterexample: extract composed with serialize is *not* the
identity on valid verdicts.  `c4Bad` satisfies every §3 invariant, yet its
unwrapped serialization contains a backtick fence inside a feedback string,
so the extractor cuts the reply at the fence, fails to parse the remainder,
and returns the fallback instead of the verdict itself. -/
theorem c4_counterexample :
    isVerdictShape 3 3 6 c4Bad = true ∧
    grade_extract 3 3 6 (String.mk (jsonChars c4Bad)) = fallback_verdict 3 3 6 ∧
    fallback_verdict 3 3 6 ≠ c4Bad := by
  refine ⟨by decide, by decide, by decide⟩

/-- Claim C4 (amended): for a verdict whose serialization contains no
backtick, extraction recovers the verdict whether the reply is unwrapped,
wrapped in a ```json-tagged fence, or wrapped in a generic ``` fence; on
serializations containing a backtick the identity can fail. -/
theorem c4_wraps (q1max q2max totalmax : Nat) (j : Json)
    (hbt : ∀ c ∈ jsonChars j, c ≠ btC) :
    grade_extract q1max q2max totalmax (String.mk (jsonChars j)) = j ∧
    grade_extract q1max q2max totalmax
      (String.mk ([btC, btC, btC, 'j', 's', 'o', 'n', nlC] ++ jsonChars j ++
        [nlC, btC, btC, btC])) = j ∧
    grade_extract q1max q2max totalmax
      (String.mk ([btC, btC, btC, nlC] ++ jsonChars j ++ [nlC, btC, btC, btC])) = j :=
  ⟨grade_extract_unwrapped q1max q2max totalmax j hbt,
   grade_extract_jsonfence q1max q2max totalmax j hbt,
   grade_extract_plainfence q1max q2max totalmax j hbt⟩

/-- Witness for the amended C4 theorem at a concrete backtick-free verdict. -/
theorem c4_witness :
    grade_extract 3 3 6 (String.mk (jsonChars c1Json)) = c1Json :=
  (c4_wraps 3 3 6 c1Json (by decide)).1

/-! ### Claim C5 -/

/-- The lenient cross-box instruction is hard-wired into every compiled
prompt: it sits between the question statements and the code boxes in the
single template. -/
theorem lenientInstr_embedded (sec q1text q2text q1a q1b q2a : String)
    (q1max q2max totalmax : Nat) :
    lenientInstr.data <:+:
      (buildPrompt sec q1text q2text q1a q1b q2a q1max q2max totalmax).data := by
  refine ⟨(tplA ++ sec ++ tplB ++ point_info sec ++ tplC ++ q1text ++ tplD ++
      q2text ++ tplE1).data,
    (tplE2 ++ orDefault q1a ++ tplF ++ orDefault q1b ++ tplG ++ orDefault q2a ++
      tplH ++ natStr q1max ++ tplI ++ natStr q1max ++ tplJ ++ natStr q2max ++
      tplK ++ natStr q2max ++ tplL ++ natStr totalmax ++ tplM).data, ?_⟩
  simp [buildPrompt, String.data_append, List.append_assoc]

/-- Claim C5, counterexample: there is no configuration point at all — for
both registered cohorts (and any answer boxes) the compiled prompt contains
the lenient-inference instruction telling the model to read all boxes
together and infer which code answers which question.  No compiled prompt
follows the strict-mapping policy. -/
theorem c5_counterexample :
    lenientInstr.data <:+: (promptFor "WNL8" "x" "y" "z").data ∧
    lenientInstr.data <:+: (promptFor "WNL10" "x" "y" "z").data := by
  constructor
  · rw [show promptFor "WNL8" "x" "y" "z" =
      buildPrompt "WNL8" wnl8Q1 wnl8Q2 "x" "y" "z" 3 3 6 from rfl]
    exact lenientInstr_embedded "WNL8" wnl8Q1 wnl8Q2 "x" "y" "z" 3 3 6
  · rw [show promptFor "WNL10" "x" "y" "z" =
      buildPrompt "WNL10" wnl10Q1 wnl10Q2 "x" "y" "z" 3 3 6 from rfl]
    exact lenientInstr_embedded "WNL10" wnl10Q1 wnl10Q2 "x" "y" "z" 3 3 6

/-- Claim C5 (amended): the program has exactly one hard-coded prompt
template and no leniency-policy configuration; every prompt compiled for a
registered cohort embeds the lenient-inference cross-box instruction. -/
theorem c5_single_template (sec : String) (hsec : sec ∈ SECTIONS_TO_GRADE)
    (q1a q1b q2a : String) :
    lenientInstr.data <:+: (promptFor sec q1a q1b q2a).data := by
  have hs : sec = "WNL8" ∨ sec = "WNL10" := by
    simpa [SECTIONS_TO_GRADE] using hsec
  rcases hs with rfl | rfl
  · rw [show promptFor "WNL8" q1a q1b q2a =
      buildPrompt "WNL8" wnl8Q1 wnl8Q2 q1a q1b q2a 3 3 6 from rfl]
    exact lenientInstr_embedded "WNL8" wnl8Q1 wnl8Q2 q1a q1b q2a 3 3 6
  · rw [show promptFor "WNL10" q1a q1b q2a =
      buildPrompt "WNL10" wnl10Q1 wnl10Q2 q1a q1b q2a 3 3 6 from rfl]
    exact lenientInstr_embedded "WNL10" wnl10Q1 wnl10Q2 q1a q1b q2a 3 3 6

/-- Witness for the amended C5 theorem at a concrete cohort and answers. -/
theorem c5_witness :
    lenientInstr.data <:+: (promptFor "WNL8" "" "" "").data :=
  c5_single_template "WNL8" (by decide) "" "" ""

/-! ### Claim C6 -/

/-- `s[:500]` keeps exactly the first 500 characters. -/
theorem pyTrunc_data (s : String) : (pyTrunc s).data = s.data.take 500 := by
  by_cases h : s = ""
  · subst h; rfl
  · simp [pyTrunc, h]

/-- In both the success row and the error row, the code fields are the
truncated answer boxes. -/
theorem processRowTotal_codes (key : String) (r : SubmissionRow) :
    (processRowTotal key r).Q1_Code_a = pyTrunc (r.Q1_a.getD "") ∧
    (processRowTotal key r).Q1_Code_b = pyTrunc (r.Q1_b.getD "") ∧
    (processRowTotal key r).Q2_Code = pyTrunc (r.Q2_a.getD "") := by
  cases hgs : grade_student key r.Section_Code (r.Q1_a.getD "") (r.Q1_b.getD "")
      (r.Q2_a.getD "") r.oracle with
  | error e =>
    cases hh : handlerPoints r.Section_Code with
    | none => simp [processRowTotal, hgs, hh, Except.bind, errorRow]
    | some ab => simp [processRowTotal, hgs, hh, Except.bind, errorRow]
  | ok g =>
    cases hv : validateFields g with
    | error e =>
      cases hh : handlerPoints r.Section_Code with
      | none =>
        simp [processRowTotal, buildRow, hgs, hv, hh, Except.bind, Except.map, errorRow]
      | some ab =>
        simp [processRowTotal, buildRow, hgs, hv, hh, Except.bind, Except.map, errorRow]
    | ok f =>
      simp [processRowTotal, buildRow, hgs, hv, Except.bind, Except.map, mkRow]

/-- The first answer box is embedded untruncated in the compiled prompt. -/
theorem boxA_embedded (sec q1text q2text q1a q1b q2a : String)
    (q1max q2max totalmax : Nat) :
    q1a.data <:+: (buildPrompt sec q1text q2text q1a q1b q2a q1max q2max totalmax).data := by
  by_cases h : q1a = ""
  · subst h; exact List.nil_infix
  · refine ⟨(tplA ++ sec ++ tplB ++ point_info sec ++ tplC ++ q1text ++ tplD ++
        q2text ++ tplE1 ++ lenientInstr ++ tplE2).data,
      (tplF ++ orDefault q1b ++ tplG ++ orDefault q2a ++ tplH ++ natStr q1max ++
        tplI ++ natStr q1max ++ tplJ ++ natStr q2max ++ tplK ++ natStr q2max ++
        tplL ++ natStr totalmax ++ tplM).data, ?_⟩
    simp [buildPrompt, orDefault, h, String.data_append, List.append_assoc]

/-- The second answer box is embedded untruncated in the compiled prompt. -/
theorem boxB_embedded (sec q1text q2text q1a q1b q2a : String)
    (q1max q2max totalmax : Nat) :
    q1b.data <:+: (buildPrompt sec q1text q2text q1a q1b q2a q1max q2max totalmax).data := by
  by_cases h : q1b = ""
  · subst h; exact List.nil_infix
  · refine ⟨(tplA ++ sec ++ tplB ++ point_info sec ++ tplC ++ q1text ++ tplD ++
        q2text ++ tplE1 ++ lenientInstr ++ tplE2 ++ orDefault q1a ++ tplF).data,
      (tplG ++ orDefault q2a ++ tplH ++ natStr q1max ++
        tplI ++ natStr q1max ++ tplJ ++ natStr q2max ++ tplK ++ natStr q2max ++
        tplL ++ natStr totalmax ++ tplM).data, ?_⟩
    simp [buildPrompt, orDefault, h, String.data_append, List.append_assoc]

/-- The third answer box is embedded untruncated in the compiled prompt. -/
theorem boxC_embedded (sec q1text q2text q1a q1b q2a : String)
    (q1max q2max totalmax : Nat) :
    q2a.data <:+: (buildPrompt sec q1text q2text q1a q1b q2a q1max q2max totalmax).data := by
  by_cases h : q2a = ""
  · subst h; exact List.nil_infix
  · refine ⟨(tplA ++ sec ++ tplB ++ point_info sec ++ tplC ++ q1text ++ tplD ++
        q2text ++ tplE1 ++ lenientInstr ++ tplE2 ++ orDefault q1a ++ tplF ++
        orDefault q1b ++ tplG).data,
      (tplH ++ natStr q1max ++
        tplI ++ natStr q1max ++ tplJ ++ natStr q2max ++ tplK ++ natStr q2max ++
        tplL ++ natStr totalmax ++ tplM).data, ?_⟩
    simp [buildPrompt, orDefault, h, String.data_append, List.append_assoc]

/-- A cohort with `POINTS` entries is one of the two registered ones. -/
theorem registered_sections (sec : String)
    (h : (handlerPoints sec).isSome = true) :
    sec = "WNL8" ∨ sec = "WNL10" := by
  by_cases h8 : sec = "WNL8"
  · exact Or.inl h8
  by_cases h10 : sec = "WNL10"
  · exact Or.inr h10
  exfalso
  have hlk : POINTS.lookup sec = none := by
    simp [POINTS, List.lookup, show (sec == "WNL8") = false from beq_eq_false_iff_ne.mpr h8,
      show (sec == "WNL10") = false from beq_eq_false_iff_ne.mpr h10]
  rw [handlerPoints] at h
  simp [hlk] at h

/-- Claim C6: for every submission in a registered cohort, the report row
code fields hold exactly the first 500 characters of each answer box, while
the prompt that grading sends to the endpoint embeds each answer box in
full, untruncated. -/
theorem c6_full_prompt_truncated_report (key : String) (r : SubmissionRow)
    (hreg : (handlerPoints r.Section_Code).isSome = true) :
    ((processRowTotal key r).Q1_Code_a.data = (r.Q1_a.getD "").data.take 500 ∧
     (processRowTotal key r).Q1_Code_b.data = (r.Q1_b.getD "").data.take 500 ∧
     (processRowTotal key r).Q2_Code.data = (r.Q2_a.getD "").data.take 500) ∧
    ((r.Q1_a.getD "").data <:+:
      (promptFor r.Section_Code (r.Q1_a.getD "") (r.Q1_b.getD "") (r.Q2_a.getD "")).data ∧
     (r.Q1_b.getD "").data <:+:
      (promptFor r.Section_Code (r.Q1_a.getD "") (r.Q1_b.getD "") (r.Q2_a.getD "")).data ∧
     (r.Q2_a.getD "").data <:+:
      (promptFor r.Section_Code (r.Q1_a.getD "") (r.Q1_b.getD "") (r.Q2_a.getD "")).data) := by
  constructor
  · obtain ⟨h1, h2, h3⟩ := processRowTotal_codes key r
    exact ⟨by rw [h1, pyTrunc_data], by rw [h2, pyTrunc_data], by rw [h3, pyTrunc_data]⟩
  · rcases registered_sections r.Section_Code hreg with hs | hs <;> rw [hs]
    · rw [show ∀ a b c, promptFor "WNL8" a b c = buildPrompt "WNL8" wnl8Q1 wnl8Q2 a b c 3 3 6
        from fun _ _ _ => rfl]
      exact ⟨boxA_embedded _ _ _ _ _ _ _ _ _, boxB_embedded _ _ _ _ _ _ _ _ _,
        boxC_embedded _ _ _ _ _ _ _ _ _⟩
    · rw [show ∀ a b c, promptFor "WNL10" a b c = buildPrompt "WNL10" wnl10Q1 wnl10Q2 a b c 3 3 6
        from fun _ _ _ => rfl]
      exact ⟨boxA_embedded _ _ _ _ _ _ _ _ _, boxB_embedded _ _ _ _ _ _ _ _ _,
        boxC_embedded _ _ _ _ _ _ _ _ _⟩

/-- Witness for C6 at a concrete submission with a long answer box. -/
theorem c6_witness :
    ((processRowTotal "k" c3Good).Q1_Code_a.data =
      ((c3Good.Q1_a.getD "").data.take 500) ∧
     (processRowTotal "k" c3Good).Q1_Code_b.data =
      ((c3Good.Q1_b.getD "").data.take 500) ∧
     (processRowTotal "k" c3Good).Q2_Code.data =
      ((c3Good.Q2_a.getD "").data.take 500)) ∧
    ((c3Good.Q1_a.getD "").data <:+:
      (promptFor c3Good.Section_Code (c3Good.Q1_a.getD "") (c3Good.Q1_b.getD "")
        (c3Good.Q2_a.getD "")).data ∧
     (c3Good.Q1_b.getD "").data <:+:
      (promptFor c3Good.Section_Code (c3Good.Q1_a.getD "") (c3Good.Q1_b.getD "")
        (c3Good.Q2_a.getD "")).data ∧
     (c3Good.Q2_a.getD "").data <:+:
      (promptFor c3Good.Section_Code (c3Good.Q1_a.getD "") (c3Good.Q1_b.getD "")
        (c3Good.Q2_a.getD "")).data) :=
  c6_full_prompt_truncated_report "k" c3Good rfl

/-! ### Claim C7 -/

/-- `Except.ok a >>= k` runs the continuation. -/
theorem exc_bind_ok {α β : Type} (a : α) (k : α → Except String β) :
    (Except.ok a >>= k) = k a := rfl

/-- Destructor for a successful `Except` bind. -/
theorem bind_ok_dest {α β : Type} {x : Except String α} {k : α → Except String β}
    {r : β} (h : (x >>= k) = .ok r) : ∃ a, x = .ok a ∧ k a = .ok r := by
  cases x with
  | error e => exact absurd h (by intro hc; cases hc)
  | ok a => exact ⟨a, rfl, h⟩

/-- Any successful `validateFields` run pins the percentage field to the
rounded ratio of the two numeric totals of the verdict. -/
theorem validateFields_pct (g : Json) (f : GradedFields)
    (hok : validateFields g = .ok f) :
    ∃ tot maxtot tv mv, jget g "total_points" = .ok tot ∧
      jget g "max_total" = .ok maxtot ∧ jnumQ tot = .ok tv ∧
      jnumQ maxtot = .ok mv ∧ ¬mv = 0 ∧ f.pct = pyRound1 (tv / mv * 100) := by
  unfold validateFields at hok
  obtain ⟨gq1, h1, hok⟩ := bind_ok_dest hok
  obtain ⟨q1fb, h2, hok⟩ := bind_ok_dest hok
  obtain ⟨q1cpv, h3, hok⟩ := bind_ok_dest hok
  obtain ⟨q1cp, h4, hok⟩ := bind_ok_dest hok
  obtain ⟨q1pts, h5, hok⟩ := bind_ok_dest hok
  obtain ⟨q1max, h6, hok⟩ := bind_ok_dest hok
  obtain ⟨gq2, h7, hok⟩ := bind_ok_dest hok
  obtain ⟨q2fb, h8, hok⟩ := bind_ok_dest hok
  obtain ⟨q2cpv, h9, hok⟩ := bind_ok_dest hok
  obtain ⟨q2cp, h10, hok⟩ := bind_ok_dest hok
  obtain ⟨q2pts, h11, hok⟩ := bind_ok_dest hok
  obtain ⟨q2max, h12, hok⟩ := bind_ok_dest hok
  obtain ⟨tot, h13, hok⟩ := bind_ok_dest hok
  obtain ⟨maxtot, h14, hok⟩ := bind_ok_dest hok
  obtain ⟨tv, h15, hok⟩ := bind_ok_dest hok
  obtain ⟨mv, h16, hok⟩ := bind_ok_dest hok
  by_cases hmv : mv = 0
  · rw [if_pos hmv] at hok
    exact absurd hok (by intro hc; cases hc)
  · rw [if_neg hmv] at hok
    obtain ⟨ov, h17, hok⟩ := bind_ok_dest hok
    refine ⟨tot, maxtot, tv, mv, h13, h14, h15, h16, hmv, ?_⟩
    rw [← Except.ok.inj hok]

/-- Forward evaluation of `validateFields` once every lookup value is
known. -/
theorem validateFields_run (g gq1 q1fb q1cpv q1pts q1max gq2 q2fb q2cpv q2pts
      q2max tot maxtot : Json) (q1cp q2cp : String) (tv mv : ℚ)
    (h1 : jget g "Q1" = .ok gq1)
    (h2 : jget gq1 "feedback" = .ok q1fb)
    (h3 : jget gq1 "correct_parts" = .ok q1cpv)
    (h4 : pyJoin q1cpv = .ok q1cp)
    (h5 : jget gq1 "points_earned" = .ok q1pts)
    (h6 : jget gq1 "max_points" = .ok q1max)
    (h7 : jget g "Q2" = .ok gq2)
    (h8 : jget gq2 "feedback" = .ok q2fb)
    (h9 : jget gq2 "correct_parts" = .ok q2cpv)
    (h10 : pyJoin q2cpv = .ok q2cp)
    (h11 : jget gq2 "points_earned" = .ok q2pts)
    (h12 : jget gq2 "max_points" = .ok q2max)
    (h13 : jget g "total_points" = .ok tot)
    (h14 : jget g "max_total" = .ok maxtot)
    (h15 : jnumQ tot = .ok tv)
    (h16 : jnumQ maxtot = .ok mv) :
    validateFields g =
      if mv = 0 then .error "ZeroDivisionError: division by zero"
      else (jget g "overall_comment").map (fun ov =>
        ⟨q1fb, q1cp, q1pts, q1max, q2fb, q2cp, q2pts, q2max, tot, maxtot,
          pyRound1 (tv / mv * 100), ov⟩) := by
  unfold validateFields
  simp only [h1, h2, h3, h4, h5, h6, h7, h8, h9, h10, h11, h12, h13, h14, h15,
    h16, exc_bind_ok]
  by_cases hmv : mv = 0
  · rw [if_pos hmv, if_pos hmv]
    rfl
  · rw [if_neg hmv, if_neg hmv]
    cases jget g "overall_comment" with
    | error e => rfl
    | ok ov => rfl

/-- `round(5 / 6 * 100, 1) = 83.3`. -/
theorem pyRound1_56 : pyRound1 ((5 : ℚ) / 6 * 100) = 833 / 10 := by
  have hf : ⌊(5 : ℚ) / 6 * 100 * 10⌋ = 833 := by
    rw [Int.floor_eq_iff]
    constructor <;> push_cast <;> norm_num
  simp only [pyRound1, roundHalfEven]
  rw [hf]
  rw [if_pos (by push_cast; norm_num)]
  norm_num

/-- Claim C7: for a successfully built report row, the percentage field is
`round(total_points / max_total * 100, 1)` computed from the numeric totals
of the verdict; in particular 5 of 6 points rounds to 83.3. -/
theorem c7_percentage (r : SubmissionRow) (q1a q1b q2a : String) (g : Json)
    (row : ReportRow) (tot maxtot : Json) (tv mv : ℚ)
    (hrow : buildRow r q1a q1b q2a g = .ok row)
    (htot : jget g "total_points" = .ok tot)
    (hmax : jget g "max_total" = .ok maxtot)
    (htv : jnumQ tot = .ok tv)
    (hmv : jnumQ maxtot = .ok mv) :
    row.Percentage = pyRound1 (tv / mv * 100) ∧
    pyRound1 ((5 : ℚ) / 6 * 100) = 833 / 10 := by
  refine ⟨?_, pyRound1_56⟩
  unfold buildRow at hrow
  cases hv : validateFields g with
  | error e => rw [hv] at hrow; exact absurd hrow (by intro hc; cases hc)
  | ok f =>
    rw [hv] at hrow
    obtain ⟨tot2, maxtot2, tv2, mv2, k13, k14, k15, k16, kmv, kpct⟩ :=
      validateFields_pct g f hv
    have htot2 : tot2 = tot := Except.ok.inj (k13.symm.trans htot)
    have hmax2 : maxtot2 = maxtot := Except.ok.inj (k14.symm.trans hmax)
    subst htot2 hmax2
    have htv2 : tv2 = tv := Except.ok.inj (k15.symm.trans htv)
    have hmv2 : mv2 = mv := Except.ok.inj (k16.symm.trans hmv)
    subst htv2 hmv2
    have hr2 : row = mkRow r.Name r.ID r.Email_Address r.Section_Code q1a q1b q2a f :=
      (Except.ok.inj hrow).symm
    rw [hr2]
    exact kpct

/-- A verdict with `total_points` 5 and `max_total` 6. -/
def g56 : Json :=
  .jobj (.fcons "Q1"
    (.jobj (.fcons "feedback" (.jstr "ok")
      (.fcons "correct_parts" (.jarr .nil)
        (.fcons "points_earned" (.jnum 2 0)
          (.fcons "max_points" (.jnum 3 0) .fnil)))))
    (.fcons "Q2"
      (.jobj (.fcons "feedback" (.jstr "ok")
        (.fcons "correct_parts" (.jarr .nil)
          (.fcons "points_earned" (.jnum 3 0)
            (.fcons "max_points" (.jnum 3 0) .fnil)))))
      (.fcons "total_points" (.jnum 5 0)
        (.fcons "max_total" (.jnum 6 0)
          (.fcons "overall_comment" (.jstr "hi") .fnil)))))

/-- The graded fields `validateFields` extracts from `g56`. -/
def f56 : GradedFields :=
  ⟨.jstr "ok", "", .jnum 2 0, .jnum 3 0, .jstr "ok", "", .jnum 3 0, .jnum 3 0,
    .jnum 5 0, .jnum 6 0, pyRound1 ((5 : ℚ) / 6 * 100), .jstr "hi"⟩

theorem validateFields_g56 : validateFields g56 = .ok f56 := by
  rw [validateFields_run g56 _ _ _ _ _ _ _ _ _ _ _ _ "" "" 5 6 rfl rfl rfl rfl
    rfl rfl rfl rfl rfl rfl rfl rfl rfl rfl (by norm_num [jnumQ]) (by norm_num [jnumQ])]
  rw [if_neg (by norm_num)]
  rfl

/-- A concrete submission row for the C7 witness. -/
def r56 : SubmissionRow :=
  { Name := "N", ID := "1", Email_Address := "n@x", Section_Code := "WNL8",
    Q1_a := none, Q1_b := none, Q2_a := none,
    oracle := fun _ _ => ApiResult.ok "x" }

/-- The report row built for `r56` from `g56`. -/
def row56 : ReportRow := mkRow "N" "1" "n@x" "WNL8" "" "" "" f56

/-- Witness for C7 at the concrete 5-of-6 verdict. -/
theorem c7_witness :
    row56.Percentage = pyRound1 ((5 : ℚ) / 6 * 100) ∧
    pyRound1 ((5 : ℚ) / 6 * 100) = 833 / 10 :=
  c7_percentage r56 "" "" "" g56 row56 (.jnum 5 0) (.jnum 6 0) 5 6
    (by rw [buildRow, validateFields_g56]; rfl) rfl rfl
    (by norm_num [jnumQ]) (by norm_num [jnumQ])

/-! ### Claim C8 -/

/-- Claim C8: the credential is read from the environment exactly once, at
startup.  A failing read aborts the run with the missing-credential error
before any submission is graded (whatever the input rows); a successful read
hands the loop the extracted key, and the whole run depends on the
environment only through that single `get_api_key` call. -/
theorem c8_single_credential_read (env : List (String × String))
    (rows : List SubmissionRow) :
    (∀ e, get_api_key env = .error e → process_all_students env rows = .error e) ∧
    (∀ key, get_api_key env = .ok key →
      process_all_students env rows = processRows key rows) ∧
    (∀ env2, get_api_key env2 = get_api_key env →
      process_all_students env2 rows = process_all_students env rows) ∧
    (env.lookup "MODEL_ACCESS_KEY" = none →
      process_all_students env rows =
        .error "MODEL_ACCESS_KEY environment variable not set") := by
  refine ⟨?_, ?_, ?_, ?_⟩
  · intro e he
    unfold process_all_students
    rw [he]
  · intro key hk
    unfold process_all_students
    rw [hk]
  · intro env2 h2
    unfold process_all_students
    rw [h2]
  · intro hnone
    unfold process_all_students get_api_key
    rw [hnone]

/-- Witness for C8: with no credential in the environment the run on a
nonempty batch fails with the startup error and grades nothing. -/
theorem c8_witness :
    process_all_students [] [c3Good] =
      .error "MODEL_ACCESS_KEY environment variable not set" :=
  (c8_single_credential_read [] [c3Good]).2.2.2 rfl

/-! ### Claim C9 -/

/-- Claim C9: in every cohort of the rubric, the named sub-part points of
each question sum to the question total declared next to them. -/
theorem c9_parts_sum (sec q : String) (qs : List (String × QAlloc)) (al : QAlloc)
    (hsec : (sec, qs) ∈ POINTS) (hq : (q, al) ∈ qs) :
    (al.parts.map Prod.snd).sum = al.total := by
  fin_cases hsec <;> fin_cases hq <;> rfl

/-- Witness for C9 at the split question of cohort WNL8. -/
theorem c9_witness :
    (((⟨3, [("a", 2), ("b", 1)]⟩ : QAlloc).parts.map Prod.snd).sum =
      (⟨3, [("a", 2), ("b", 1)]⟩ : QAlloc).total) :=
  c9_parts_sum "WNL8" "Q2"
    [("Q1", ⟨3, [("full", 3)]⟩), ("Q2", ⟨3, [("a", 2), ("b", 1)]⟩)]
    ⟨3, [("a", 2), ("b", 1)]⟩ (by decide) (by decide)

/-! ### Claim C10 -/

/-- A graded reply can only exist for a cohort whose `POINTS` entry (with
both questions) is present, so the error-row lookups in the handler cannot
themselves fail. -/
theorem grade_student_ok_registered (key sec q1a q1b q2a : String)
    (oracle : String → String → ApiResult) (g : Json)
    (h : grade_student key sec q1a q1b q2a oracle = .ok g) :
    (handlerPoints sec).isSome = true := by
  unfold grade_student at h
  split at h
  · split at h
    · rename_i qs pts hE hP x1 x2 q1m q2m hq1m hq2m
      obtain ⟨a, ha1, -⟩ := Option.map_eq_some'.mp hq1m
      obtain ⟨b, hb1, -⟩ := Option.map_eq_some'.mp hq2m
      simp [handlerPoints, hP, ha1, hb1, Option.bind]
    · exact absurd h (by intro hc; cases hc)
  · exact absurd h (by intro hc; cases hc)

/-- Claim C10: a parsed verdict whose `max_total` is 0 makes the percentage
computation raise the division-by-zero error; the per-submission handler
turns it into the zero-point error row (percentage 0) and the loop carries
on with the remaining submissions. -/
theorem c10_zero_max_total (key : String) (r : SubmissionRow) (g : Json)
    (gq1 q1fb q1cpv q1pts q1max gq2 q2fb q2cpv q2pts q2max tot : Json)
    (q1cp q2cp : String) (tv : ℚ) (s : Nat)
    (hg : grade_student key r.Section_Code (r.Q1_a.getD "") (r.Q1_b.getD "")
      (r.Q2_a.getD "") r.oracle = .ok g)
    (h1 : jget g "Q1" = .ok gq1)
    (h2 : jget gq1 "feedback" = .ok q1fb)
    (h3 : jget gq1 "correct_parts" = .ok q1cpv)
    (h4 : pyJoin q1cpv = .ok q1cp)
    (h5 : jget gq1 "points_earned" = .ok q1pts)
    (h6 : jget gq1 "max_points" = .ok q1max)
    (h7 : jget g "Q2" = .ok gq2)
    (h8 : jget gq2 "feedback" = .ok q2fb)
    (h9 : jget gq2 "correct_parts" = .ok q2cpv)
    (h10 : pyJoin q2cpv = .ok q2cp)
    (h11 : jget gq2 "points_earned" = .ok q2pts)
    (h12 : jget gq2 "max_points" = .ok q2max)
    (h13 : jget g "total_points" = .ok tot)
    (h14 : jget g "max_total" = .ok (.jnum 0 s))
    (h15 : jnumQ tot = .ok tv) :
    validateFields g = .error "ZeroDivisionError: division by zero" ∧
    processRow key r = .ok (errorRow r (r.Q1_a.getD "") (r.Q1_b.getD "")
      (r.Q2_a.getD "") "ZeroDivisionError: division by zero"
      ((handlerPoints r.Section_Code).getD (0, 0)).1
      ((handlerPoints r.Section_Code).getD (0, 0)).2) ∧
    (errorRow r (r.Q1_a.getD "") (r.Q1_b.getD "") (r.Q2_a.getD "")
      "ZeroDivisionError: division by zero"
      ((handlerPoints r.Section_Code).getD (0, 0)).1
      ((handlerPoints r.Section_Code).getD (0, 0)).2).Percentage = 0 ∧
    (∀ rs, processRows key (r :: rs) =
      (processRows key rs).map ((errorRow r (r.Q1_a.getD "") (r.Q1_b.getD "")
        (r.Q2_a.getD "") "ZeroDivisionError: division by zero"
        ((handlerPoints r.Section_Code).getD (0, 0)).1
        ((handlerPoints r.Section_Code).getD (0, 0)).2) :: ·)) := by
  have h16 : jnumQ (.jnum 0 s) = .ok 0 := by simp [jnumQ]
  have hvf : validateFields g = .error "ZeroDivisionError: division by zero" := by
    rw [validateFields_run g gq1 q1fb q1cpv q1pts q1max gq2 q2fb q2cpv q2pts
      q2max tot (.jnum 0 s) q1cp q2cp tv 0 h1 h2 h3 h4 h5 h6 h7 h8 h9 h10 h11
      h12 h13 h14 h15 h16]
    rw [if_pos rfl]
  have hhp := grade_student_ok_registered key r.Section_Code (r.Q1_a.getD "")
    (r.Q1_b.getD "") (r.Q2_a.getD "") r.oracle g hg
  obtain ⟨ab, hab⟩ := Option.isSome_iff_exists.mp hhp
  have hpr : processRow key r = .ok (errorRow r (r.Q1_a.getD "") (r.Q1_b.getD "")
      (r.Q2_a.getD "") "ZeroDivisionError: division by zero"
      ((handlerPoints r.Section_Code).getD (0, 0)).1
      ((handlerPoints r.Section_Code).getD (0, 0)).2) := by
    simp only [processRow, hg, Except.bind, buildRow, hvf, Except.map, hab]
    rfl
  refine ⟨hvf, hpr, rfl, ?_⟩
  intro rs
  conv_lhs => rw [processRows]
  rw [hpr]

/-- A model reply that parses fine but declares `max_total` 0. -/
def c10Reply : String :=
  "\x7b\"Q1\": \x7b\"feedback\": \"ok\", \"correct_parts\": [], \"points_earned\": 3, \"max_points\": 3\x7d, \"Q2\": \x7b\"feedback\": \"ok\", \"correct_parts\": [], \"points_earned\": 0, \"max_points\": 3\x7d, \"total_points\": 3, \"max_total\": 0, \"overall_comment\": \"hi\"\x7d"

/-- The value `json.loads` yields for `c10Reply`. -/
def g0z : Json :=
  .jobj (.fcons "Q1"
    (.jobj (.fcons "feedback" (.jstr "ok")
      (.fcons "correct_parts" (.jarr .nil)
        (.fcons "points_earned" (.jnum 3 0)
          (.fcons "max_points" (.jnum 3 0) .fnil)))))
    (.fcons "Q2"
      (.jobj (.fcons "feedback" (.jstr "ok")
        (.fcons "correct_parts" (.jarr .nil)
          (.fcons "points_earned" (.jnum 0 0)
            (.fcons "max_points" (.jnum 3 0) .fnil)))))
      (.fcons "total_points" (.jnum 3 0)
        (.fcons "max_total" (.jnum 0 0)
          (.fcons "overall_comment" (.jstr "hi") .fnil)))))

/-- A registered-cohort submission whose grading reply is `c10Reply`. -/
def r0z : SubmissionRow :=
  { Name := "Z", ID := "9", Email_Address := "z@x", Section_Code := "WNL8",
    Q1_a := none, Q1_b := none, Q2_a := none,
    oracle := fun _ _ => ApiResult.ok c10Reply }

/-- Witness for C10: the zero-`max_total` reply produces the zero-point
error row instead of aborting. -/
theorem c10_witness :
    processRow "k" r0z = .ok (errorRow r0z "" "" ""
      "ZeroDivisionError: division by zero" 3 3) :=
  (c10_zero_max_total "k" r0z g0z
    (.jobj (.fcons "feedback" (.jstr "ok")
      (.fcons "correct_parts" (.jarr .nil)
        (.fcons "points_earned" (.jnum 3 0)
          (.fcons "max_points" (.jnum 3 0) .fnil)))))
    (.jstr "ok") (.jarr .nil) (.jnum 3 0) (.jnum 3 0)
    (.jobj (.fcons "feedback" (.jstr "ok")
      (.fcons "correct_parts" (.jarr .nil)
        (.fcons "points_earned" (.jnum 0 0)
          (.fcons "max_points" (.jnum 3 0) .fnil)))))
    (.jstr "ok") (.jarr .nil) (.jnum 0 0) (.jnum 3 0)
    (.jnum 3 0) "" "" 3 0
    rfl rfl rfl rfl rfl rfl rfl rfl rfl rfl rfl rfl rfl rfl rfl
    (by norm_num [jnumQ])).2.1
